import Mathlib

/-!
Verification development for the Aqua Stark backend API (TypeScript).

This file shallowly embeds the service-layer workflows of the repository:
the player registration and starter-pack minting of
`src/services/player.service.ts` (PlayerService), the batch feeding and
breeding of `src/services/fish.service.ts` (FishService), the tank capacity
guard of `src/services/tank.service.ts` (TankService), the pure XP
calculator of `src/core/utils/xp-calculator.ts`, the genealogy traversal of
`src/core/utils/fish-genealogy.ts`, and the id counters of
`src/core/utils/dojo-client.ts`.

Modelling conventions:
 - The relational store (Supabase) is a record of row lists (`DB`).
   A PostgREST `.single()` call succeeds exactly when the filtered result
   has exactly one row; zero rows or several rows yield the PGRST116
   error condition, which is what the supabase-js client reports in both
   cases (`selectSingle` below).
 - The ledger client (Dojo stub) and the fallibility of every remote call
   are captured by an environment record passed to each workflow: the
   environment decides, for each on-chain call and each store write, which
   outcome the remote side produces (success payloads, unique violations,
   generic failures).  Workflows are then pure functions from the store
   state and the environment to an outcome record that carries the result,
   the final store state, and the traces the claims speak about.
 - Thrown JavaScript errors are an `Except`-style result with a structured
   error type `Err`; each constructor corresponds to one `throw` site of
   the source and carries the dynamic data that the source interpolates
   into the message (ids, transaction hashes).  `Err.kind` maps each
   constructor to the HTTP error class of the thrown exception
   (ValidationError / NotFoundError / ConflictError / OnChainError or a
   generic `Error`).
 - JavaScript numbers are modelled as `ℚ` where arithmetic matters (XP
   values) and as `Nat`/`Int` for ids and counters.
-/

deriving instance DecidableEq for Except

namespace Aqua

/-- Error classes of `src/core/errors`: ValidationError, NotFoundError,
ConflictError, OnChainError, plus the generic `Error` used for unexpected
database failures. -/
inductive ErrClass where
  | validationE
  | notFoundE
  | conflictE
  | onChainE
  | genericE
deriving DecidableEq, Repr

/-- Structured stand-ins for every `throw` site that the claims mention.
Each constructor records the dynamic data that the source interpolates into
the thrown message. -/
inductive Err where
  /-- ValidationError: address missing or whitespace. -/
  | addressRequired
  /-- ValidationError: address does not match the Starknet hex pattern. -/
  | invalidAddressFormat
  /-- ValidationError: a fish id that is not a positive integer. -/
  | invalidFishIdInput (id : Int)
  /-- ValidationError: empty fish id list passed to feedFishBatch. -/
  | emptyFishIds
  /-- ValidationError thrown by mintStarterPack when the player row is
  absent: the register-first message. -/
  | registerFirst
  /-- ConflictError: player already has a starter pack, tank exists. -/
  | conflictTankExists
  /-- ConflictError: player already has a starter pack, fish rows exist
  (carries the counted number of fish). -/
  | conflictFishExist (count : Nat)
  /-- ConflictError: player already has a starter pack, the stored
  fish_count field is positive. -/
  | conflictFishCount
  /-- OnChainError from the tank mint of the starter pack. -/
  | onChainMintTank
  /-- OnChainError from the first fish mint; carries the tank tx hash. -/
  | onChainMintFish1 (prevTx : String)
  /-- OnChainError from the second fish mint; carries the first fish tx. -/
  | onChainMintFish2 (prevTx : String)
  /-- OnChainError from the on-chain player registration. -/
  | onChainRegister
  /-- OnChainError from a per-fish XP grant in feedFishBatch. -/
  | onChainFishXp
  /-- OnChainError from the player XP grant in feedFishBatch. -/
  | onChainPlayerXp
  /-- OnChainError from the on-chain breed call. -/
  | onChainBreed
  /-- OnChainError from the on-chain fish query in getFishById. -/
  | onChainFishQuery (id : Int)
  /-- OnChainError from the on-chain tank query in checkTankCapacity. -/
  | onChainTankQuery (id : Int)
  /-- ValidationError: the additional fish count passed to
  checkTankCapacity is not a positive integer. -/
  | invalidAdditionalFish
  /-- Generic Error: id-space corruption, a tank row with the freshly
  minted id belongs to a different owner. -/
  | tankIdConflict (id : Nat)
  /-- Generic Error: a fish row with a freshly minted id belongs to a
  different owner. -/
  | fishIdConflict (id : Nat)
  /-- The Error raised after rollback when the Supabase phase of
  mintStarterPack fails.  The message of the source names the inner
  failure and the three successful on-chain transactions
  (tank_tx, fish1_tx, fish2_tx). -/
  | starterSaveFailed (inner : Err) (tankTx fish1Tx fish2Tx : String)
  /-- Generic database Error (store failures not classified above). -/
  | dbError
  /-- ValidationError: none of the fish ids passed to feedFishBatch
  exists. -/
  | noneExist
  /-- NotFoundError naming every requested fish id that was not found. -/
  | missingFish (ids : List Int)
  /-- ValidationError naming every fish id of the batch whose owner is not
  the caller. -/
  | wrongOwnerBatch (ids : List Int)
  /-- NotFoundError: single fish lookup failed. -/
  | notFoundFishId (id : Int)
  /-- NotFoundError: player row absent. -/
  | notFoundPlayer
  /-- ValidationError: breeding a fish with itself. -/
  | selfBreed
  /-- ValidationError naming the parent fish that the caller does not
  own. -/
  | wrongOwnerFish (id : Int)
  /-- ValidationError naming the parent fish that is not an adult. -/
  | notAdult (id : Int)
  /-- ValidationError naming the parent fish that is not ready to
  breed. -/
  | notReady (id : Int)
  /-- NotFoundError: the owner has no tank to house offspring. -/
  | noTank
  /-- ConflictError: the tank is at capacity; carries the current fish
  count and the capacity that the message states. -/
  | tankFull (tankId : Int) (current : Nat) (capacity : Nat)
  /-- ValidationError: invalid tank id. -/
  | invalidTankId
  /-- NotFoundError: tank row absent. -/
  | notFoundTank
  /-- ValidationError of the genealogy traversal: maximum generation depth
  exceeded at the carried generation number. -/
  | maxDepth (generation : Nat)
  /-- Technical marker of the genealogy model: the recursion fuel ran out.
  The termination theorem shows this value is never produced. -/
  | outOfFuel
deriving DecidableEq, Repr

/-- The HTTP error class of each throw site, as declared by the error
classes used in the source. -/
def Err.kind : Err → ErrClass
  | .addressRequired => .validationE
  | .invalidAddressFormat => .validationE
  | .invalidFishIdInput _ => .validationE
  | .emptyFishIds => .validationE
  | .registerFirst => .validationE
  | .conflictTankExists => .conflictE
  | .conflictFishExist _ => .conflictE
  | .conflictFishCount => .conflictE
  | .onChainMintTank => .onChainE
  | .onChainMintFish1 _ => .onChainE
  | .onChainMintFish2 _ => .onChainE
  | .onChainRegister => .onChainE
  | .onChainFishXp => .onChainE
  | .onChainPlayerXp => .onChainE
  | .onChainBreed => .onChainE
  | .onChainFishQuery _ => .onChainE
  | .onChainTankQuery _ => .onChainE
  | .invalidAdditionalFish => .validationE
  | .tankIdConflict _ => .genericE
  | .fishIdConflict _ => .genericE
  | .starterSaveFailed _ _ _ _ => .genericE
  | .dbError => .genericE
  | .noneExist => .validationE
  | .missingFish _ => .notFoundE
  | .wrongOwnerBatch _ => .validationE
  | .notFoundFishId _ => .notFoundE
  | .notFoundPlayer => .notFoundE
  | .selfBreed => .validationE
  | .wrongOwnerFish _ => .validationE
  | .notAdult _ => .validationE
  | .notReady _ => .validationE
  | .noTank => .notFoundE
  | .tankFull _ _ _ => .conflictE
  | .invalidTankId => .validationE
  | .notFoundTank => .notFoundE
  | .maxDepth _ => .validationE
  | .outOfFuel => .genericE

/-! ## Store rows (`supabase/migrations`, `src/models`) -/

/-- Off-chain player row (players table).  The timestamp columns are not
touched by any modelled workflow and are omitted. -/
structure PlayerRow where
  address : String
  total_xp : ℚ
  fish_count : Nat
  tournaments_won : Nat
  reputation : Nat
  offspring_created : Nat
  avatar_url : Option String
deriving DecidableEq, Repr

/-- Off-chain fish row (fish table). -/
structure FishRow where
  id : Nat
  owner : String
  species : String
  image_url : String
  tank_id : Option Nat
  parent1_id : Option Nat
  parent2_id : Option Nat
deriving DecidableEq, Repr

/-- Off-chain tank row (tanks table). -/
structure TankRow where
  id : Nat
  owner : String
  name : String
deriving DecidableEq, Repr

/-- Off-chain decoration row (decorations table).  The kind is the stored
string; unknown kinds contribute 0 to the multiplier. -/
structure DecorationRow where
  id : Nat
  owner : String
  kind : String
  is_active : Bool
deriving DecidableEq, Repr

/-- Reconciliation entry (sync_queue table). -/
structure SyncRow where
  tx_hash : String
  entity_type : String
  entity_id : String
  status : String
deriving DecidableEq, Repr

/-- The off-chain relational store. -/
structure DB where
  players : List PlayerRow
  fish : List FishRow
  tanks : List TankRow
  decorations : List DecorationRow
  sync_queue : List SyncRow
deriving DecidableEq, Repr

/-- PostgREST `.single()` semantics as surfaced by supabase-js: the call
returns the row when the filtered result has exactly one row; zero rows or
several rows produce the PGRST116 error condition (`none` here). -/
def selectSingle {α : Type} (rows : List α) : Option α :=
  match rows with
  | [row] => some row
  | _ => none

/-- Whitespace as removed by the JavaScript string trim. -/
def isWsChar (c : Char) : Bool :=
  c = ' ' || c = '\t' || c = '\n' || c = '\r'

/-- JavaScript string trim, over the character list of the string. -/
def strTrim (s : String) : String :=
  String.mk (((s.data.dropWhile isWsChar).reverse.dropWhile isWsChar).reverse)

/-- Character class of the Starknet address pattern. -/
def isHexChar (c : Char) : Bool :=
  ('0' ≤ c && c ≤ '9') || ('a' ≤ c && c ≤ 'f') || ('A' ≤ c && c ≤ 'F')

/-- Test of the fixed address pattern used across the services:
a 0x prefix followed by 63 or 64 hex digits. -/
def isStarknetAddress (s : String) : Bool :=
  match s.data with
  | '0' :: 'x' :: rest =>
    (rest.length = 63 || rest.length = 64) && rest.all isHexChar
  | _ => false

/-! ## XP calculator (`src/core/utils/xp-calculator.ts`) -/

/-- Base XP granted per feeding before multipliers
(DEFAULT_FEED_BASE_XP). -/
def DEFAULT_FEED_BASE_XP : ℚ := 10

/-- getFeedBaseXp with the default Basic food type. -/
def getFeedBaseXp : ℚ := DEFAULT_FEED_BASE_XP

/-- calculateFishXp: applies a percentage multiplier to the base XP. -/
def calculateFishXp (baseXp multiplier : ℚ) : ℚ :=
  baseXp * (1 + multiplier / 100)

/-- Fixed percentage table DECORATION_XP_MULTIPLIERS; an unrecognized kind
contributes 0 (the source indexes a Record and falls back to 0). -/
def decorationKindPercent (kind : String) : ℚ :=
  if kind = "Plant" then 5
  else if kind = "Statue" then 10
  else if kind = "Background" then 2
  else if kind = "Ornament" then 3
  else 0

/-- Environment knobs of getActiveDecorationsMultiplier: whether the tank
read and the decorations read fail at the store level. -/
structure MultiplierEnv where
  tankReadFails : Bool
  decorationsReadFails : Bool
deriving DecidableEq, Repr

/-- getActiveDecorationsMultiplier: resolves the tank owner, sums the
percentages of the owner's active decorations and divides by 100.
Validation and store errors are thrown to the caller. -/
def getActiveDecorationsMultiplier (db : DB) (env : MultiplierEnv)
    (tankId : Int) : Except Err ℚ :=
  if tankId ≤ 0 then .error .invalidTankId
  else if env.tankReadFails then .error .dbError
  else
    match selectSingle (db.tanks.filter (fun t => (t.id : Int) = tankId)) with
    | none => .error .notFoundTank
    | some tankRow =>
      if tankRow.owner = "" then .error .notFoundTank
      else if env.decorationsReadFails then .error .dbError
      else
        let decorations := db.decorations.filter
          (fun d => d.owner = tankRow.owner && d.is_active)
        let totalPercentage := decorations.foldl
          (fun sum d => if d.is_active then sum + decorationKindPercent d.kind else sum) 0
        .ok (totalPercentage / 100)

/-! ## Starter pack minting (`PlayerService.mintStarterPack`) -/

/-- Result of the on-chain mintTank stub. -/
structure MintTankResult where
  tx_hash : String
  tank_id : Nat
deriving DecidableEq, Repr

/-- Result of the on-chain mintFish stub. -/
structure MintFishResult where
  tx_hash : String
  fish_id : Nat
deriving DecidableEq, Repr

/-- Outcome that the store reports for one insert: success, PostgreSQL
unique violation (code 23505), some other error, or a success envelope
with no rows (the defensive no-data branch of the source). -/
inductive InsRes where
  | ok
  | uniq
  | errOther
  | noData
deriving DecidableEq, Repr

/-- Outcome that the store reports for the players update: success, an
error, or a success envelope with no rows. -/
inductive UpdRes where
  | ok
  | errU
  | noDataU
deriving DecidableEq, Repr

/-- Environment of one mintStarterPack call: which outcome each remote
interaction produces. -/
structure MintEnv where
  /-- The player precondition query reports a store failure (any failure
  there is folded into the register-first ValidationError by the
  source). -/
  playerQueryFails : Bool
  /-- The tanks existence query reports a non-PGRST116 failure. -/
  tanksQueryFails : Bool
  /-- The fish count query reports a failure. -/
  fishCountQueryFails : Bool
  /-- On-chain tank mint: its result, or `none` for a throw. -/
  mintTank : Option MintTankResult
  /-- On-chain mint of fish number 1. -/
  mintFish1 : Option MintFishResult
  /-- On-chain mint of fish number 2. -/
  mintFish2 : Option MintFishResult
  insertTank : InsRes
  insertFish1 : InsRes
  insertFish2 : InsRes
  updatePlayer : UpdRes
  /-- Whether the best-effort delete of a given fish id fails. -/
  deleteFishFails : Nat → Bool
  /-- Whether the best-effort delete of a given tank id fails. -/
  deleteTankFails : Nat → Bool

/-- A delete attempted by the rollback helper, in attempt order. -/
inductive DelOp where
  | delFish (id : Nat)
  | delTank (id : Nat)
deriving DecidableEq, Repr

/-- Successful result of mintStarterPack. -/
structure StarterPack where
  tank_id : Nat
  fish_ids : List Nat
deriving DecidableEq, Repr

/-- Outcome of a mintStarterPack call: the returned or thrown value, the
final store state and the trace of delete attempts made by the rollback
helper. -/
structure MintOutcome where
  result : Except Err StarterPack
  db : DB
  deletes : List DelOp
deriving DecidableEq, Repr

/-- Constant STARTER_PACK_FISH_SPECIES. -/
def STARTER_PACK_FISH_SPECIES : String := "Starter Fish"

/-- Constant STARTER_PACK_FISH_IMAGE_URL. -/
def STARTER_PACK_FISH_IMAGE_URL : String := "/images/fish/starter-fish.png"

/-- Phase 3, step 1 of mintStarterPack: save the tank row.  Returns the
store state and whether the tank counts as saved; a unique violation is
accepted as idempotent success exactly when the existing row with that id
belongs to the caller. -/
def saveTankStep (db : DB) (res : InsRes) (addr : String)
    (rt : MintTankResult) : Except Err (DB × Bool) :=
  match res with
  | .ok =>
    .ok ({ db with tanks := db.tanks ++ [⟨rt.tank_id, addr, "Starter Tank"⟩] }, true)
  | .uniq =>
    match selectSingle (db.tanks.filter (fun t => t.id = rt.tank_id)) with
    | some existing =>
      if existing.owner = addr then .ok (db, true)
      else .error (.tankIdConflict rt.tank_id)
    | none => .error (.tankIdConflict rt.tank_id)
  | .errOther => .error .dbError
  | .noData => .error .dbError

/-- Phase 3, steps 2 and 3 of mintStarterPack: save one fish row assigned
to the new tank; the unique-violation handling mirrors the tank step. -/
def saveFishStep (db : DB) (res : InsRes) (addr : String)
    (rf : MintFishResult) (tankId : Nat) : Except Err (DB × Bool) :=
  match res with
  | .ok =>
    .ok ({ db with fish := db.fish ++
      [⟨rf.fish_id, addr, STARTER_PACK_FISH_SPECIES,
        STARTER_PACK_FISH_IMAGE_URL, some tankId, none, none⟩] }, true)
  | .uniq =>
    match selectSingle (db.fish.filter (fun f => f.id = rf.fish_id)) with
    | some existing =>
      if existing.owner = addr then .ok (db, true)
      else .error (.fishIdConflict rf.fish_id)
    | none => .error (.fishIdConflict rf.fish_id)
  | .errOther => .error .dbError
  | .noData => .error .dbError

/-- The row patch of the fish_count update. -/
def setFishCount2 (addr : String) (p : PlayerRow) : PlayerRow :=
  if p.address = addr then { p with fish_count := 2 } else p

/-- Phase 3, step 4 of mintStarterPack: set the player fish_count to 2.
The update reports no data when no player row matches. -/
def updateFishCountStep (db : DB) (res : UpdRes) (addr : String) :
    Except Err DB :=
  match res with
  | .errU => .error .dbError
  | .noDataU => .error .dbError
  | .ok =>
    if (db.players.filter (fun p => p.address = addr)).isEmpty then
      .error .dbError
    else
      .ok { db with players := db.players.map (setFishCount2 addr) }

/-- One best-effort fish delete of the rollback helper: the attempt is
always recorded; the row disappears only when the delete succeeds. -/
def rollbackFishStep (env : MintEnv) (acc : DB × List DelOp) (fid : Nat) :
    DB × List DelOp :=
  if env.deleteFishFails fid then (acc.1, acc.2 ++ [DelOp.delFish fid])
  else ({ acc.1 with fish := acc.1.fish.filter (fun f => f.id ≠ fid) },
        acc.2 ++ [DelOp.delFish fid])

/-- The best-effort tank delete of the rollback helper. -/
def rollbackTankStep (env : MintEnv) (acc : DB × List DelOp) (tid : Nat) :
    DB × List DelOp :=
  if env.deleteTankFails tid then (acc.1, acc.2 ++ [DelOp.delTank tid])
  else ({ acc.1 with tanks := acc.1.tanks.filter (fun t => t.id ≠ tid) },
        acc.2 ++ [DelOp.delTank tid])

/-- PlayerService.rollbackSupabaseInserts: best-effort deletes of the
saved rows, fish first then tank; a failing delete is logged and skipped,
never thrown.  Returns the store state and the trace of attempts. -/
def rollbackSupabaseInserts (db : DB) (env : MintEnv)
    (tankId : Option Nat) (fishIds : List Nat) : DB × List DelOp :=
  match tankId with
  | none => fishIds.foldl (rollbackFishStep env) (db, [])
  | some tid =>
    rollbackTankStep env (fishIds.foldl (rollbackFishStep env) (db, [])) tid

/-- The catch block of phase 3: roll back the saved rows and raise the
Error whose message states that the on-chain mints succeeded, naming the
three transaction hashes. -/
def starterRollbackFail (db : DB) (env : MintEnv) (rt : MintTankResult)
    (r1 r2 : MintFishResult) (tankSaved fish1Saved fish2Saved : Bool)
    (inner : Err) : MintOutcome :=
  let fishIds := (if fish1Saved then [r1.fish_id] else []) ++
    (if fish2Saved then [r2.fish_id] else [])
  let rb := rollbackSupabaseInserts db env
    (if tankSaved then some rt.tank_id else none) fishIds
  ⟨.error (.starterSaveFailed inner rt.tx_hash r1.tx_hash r2.tx_hash),
    rb.1, rb.2⟩

/-- Phase 3 of mintStarterPack: the Supabase saves with rollback on any
failure. -/
def starterOffChainPhase (db : DB) (env : MintEnv) (addr : String)
    (rt : MintTankResult) (r1 r2 : MintFishResult) : MintOutcome :=
  match saveTankStep db env.insertTank addr rt with
  | .error e => starterRollbackFail db env rt r1 r2 false false false e
  | .ok (db1, tankSaved) =>
    match saveFishStep db1 env.insertFish1 addr r1 rt.tank_id with
    | .error e => starterRollbackFail db1 env rt r1 r2 tankSaved false false e
    | .ok (db2, fish1Saved) =>
      match saveFishStep db2 env.insertFish2 addr r2 rt.tank_id with
      | .error e => starterRollbackFail db2 env rt r1 r2 tankSaved fish1Saved false e
      | .ok (db3, fish2Saved) =>
        match updateFishCountStep db3 env.updatePlayer addr with
        | .error e => starterRollbackFail db3 env rt r1 r2 tankSaved fish1Saved fish2Saved e
        | .ok db4 =>
          ⟨.ok ⟨rt.tank_id, [r1.fish_id, r2.fish_id]⟩, db4, []⟩

/-- PlayerService.mintStarterPack: validation, the three on-chain mints
(tank, fish 1, fish 2, strictly sequential, any failure throwing
OnChainError immediately), then the Supabase phase with rollback. -/
def mintStarterPack (db : DB) (env : MintEnv) (address : String) :
    MintOutcome :=
  if strTrim address = "" then ⟨.error .addressRequired, db, []⟩
  else if env.playerQueryFails then ⟨.error .registerFirst, db, []⟩
  else
    match selectSingle (db.players.filter
      (fun p => p.address = strTrim address)) with
    | none => ⟨.error .registerFirst, db, []⟩
    | some player =>
      if env.tanksQueryFails then ⟨.error .dbError, db, []⟩
      else if ((db.tanks.filter
          (fun t => t.owner = strTrim address)).take 1) ≠ [] then
        ⟨.error .conflictTankExists, db, []⟩
      else if env.fishCountQueryFails then ⟨.error .dbError, db, []⟩
      else if (db.fish.filter
          (fun f => f.owner = strTrim address)).length > 0 then
        ⟨.error (.conflictFishExist
          (db.fish.filter (fun f => f.owner = strTrim address)).length), db, []⟩
      else if player.fish_count > 0 then ⟨.error .conflictFishCount, db, []⟩
      else
        match env.mintTank with
        | none => ⟨.error .onChainMintTank, db, []⟩
        | some rt =>
          match env.mintFish1 with
          | none => ⟨.error (.onChainMintFish1 rt.tx_hash), db, []⟩
          | some r1 =>
            match env.mintFish2 with
            | none => ⟨.error (.onChainMintFish2 r1.tx_hash), db, []⟩
            | some r2 =>
              starterOffChainPhase db env (strTrim address) rt r1 r2

/-! ## Player registration (`PlayerService.registerPlayer`) -/

/-- Outcome of the players insert in registerPlayer: success, a unique
violation because a concurrent request inserted the row first (the winner
row carried here is the row that the other request created), or another
error. -/
inductive InsPlayerRes where
  | ok
  | raceLost (winner : PlayerRow)
  | errOther
deriving DecidableEq, Repr

/-- Environment of one registerPlayer call. -/
structure RegEnv where
  /-- The initial existence query reports a non-PGRST116 failure. -/
  playerQueryFails : Bool
  insertPlayer : InsPlayerRes
  /-- The re-fetch after a lost insert race fails. -/
  raceRefetchFails : Bool
  /-- Whether the on-chain registration call succeeds. -/
  registerOnChainOk : Bool
  /-- Environment of the embedded mintStarterPack call. -/
  mintEnv : MintEnv
  /-- The re-fetch after a successful starter-pack mint fails (its error
  is ignored by the source). -/
  refetchAfterMintFails : Bool

/-- Outcome of a registerPlayer call: result, final store state, and how
many times the on-chain player registration was invoked. -/
structure RegOutcome where
  result : Except Err PlayerRow
  db : DB
  regCalls : Nat
deriving DecidableEq, Repr

/-- Fresh off-chain player row with all counters at zero. -/
def newPlayerRow (addr : String) : PlayerRow :=
  ⟨addr, 0, 0, 0, 0, 0, none⟩

/-- PlayerService.registerPlayer.  The existence query and the re-fetches
filter by the address exactly as passed; only the inserted row uses the
trimmed address, mirroring the source.  No hex-pattern validation is
performed here: only emptiness is rejected. -/
def registerPlayer (db : DB) (env : RegEnv) (address : String) :
    RegOutcome :=
  if strTrim address = "" then ⟨.error .addressRequired, db, 0⟩
  else if env.playerQueryFails then ⟨.error .dbError, db, 0⟩
  else
    match selectSingle (db.players.filter (fun p => p.address = address)) with
    | some existing => ⟨.ok existing, db, 0⟩
    | none =>
      match env.insertPlayer with
      | .errOther => ⟨.error .dbError, db, 0⟩
      | .raceLost winner =>
        let db1 := { db with players := db.players ++ [winner] }
        if env.raceRefetchFails then ⟨.error .dbError, db1, 0⟩
        else
          match selectSingle (db1.players.filter (fun p => p.address = address)) with
          | none => ⟨.error .dbError, db1, 0⟩
          | some row => ⟨.ok row, db1, 0⟩
      | .ok =>
        let created := newPlayerRow (strTrim address)
        let db1 := { db with players := db.players ++ [created] }
        if env.registerOnChainOk = false then
          ⟨.error .onChainRegister, db1, 1⟩
        else
          let m := mintStarterPack db1 env.mintEnv address
          match m.result with
          | .error _ => ⟨.ok created, m.db, 1⟩
          | .ok _ =>
            if env.refetchAfterMintFails then ⟨.ok created, m.db, 1⟩
            else
              match selectSingle (m.db.players.filter (fun p => p.address = address)) with
              | some updated => ⟨.ok updated, m.db, 1⟩
              | none => ⟨.ok created, m.db, 1⟩

/-! ## Batch feeding (`FishService.feedFishBatch`) -/

/-- Environment of one feedFishBatch call. -/
structure FeedEnv where
  /-- The batch fish query fails. -/
  fishQueryFails : Bool
  /-- The owner tank query reports a non-PGRST116 failure. -/
  tankQueryOtherFails : Bool
  /-- Knobs of the embedded getActiveDecorationsMultiplier call. -/
  multiplierEnv : MultiplierEnv
  /-- On-chain per-fish XP grant: transaction hash, or `none` for a
  throw, keyed by fish id. -/
  gainFishXp : Int → Option String
  /-- On-chain player XP grant: transaction hash, or `none`. -/
  gainPlayerXp : Option String
  /-- The players read before the total_xp update fails. -/
  playerFetchFails : Bool
  /-- The players total_xp update fails. -/
  playerUpdateFails : Bool
  /-- Whether the sync_queue insert for a given transaction hash fails
  (such failures are logged, never propagated). -/
  syncInsertFails : String → Bool

/-- Outcome of a feedFishBatch call: result (the player XP transaction
hash on success), final store state, the on-chain fish grants that were
issued (fish id and amount, in call order), and the player grant that was
issued. -/
structure FeedOutcome where
  result : Except Err String
  db : DB
  fishGrants : List (Int × ℚ)
  playerGrant : Option (String × ℚ)
deriving DecidableEq, Repr

/-- First element of the list failing the positivity test, if any
(the per-id validation loop of the source throws at the first bad id). -/
def firstInvalidId (ids : List Int) : Option Int :=
  ids.find? (fun i => i ≤ 0)

/-- The sequential per-fish on-chain XP grant loop: returns the grants
issued so far paired with the collected transaction hashes, or the grants
issued before the failing call. -/
def grantFishLoop (env : FeedEnv) (amount : ℚ) :
    List Int → List (Int × ℚ) × List (Int × String) × Bool
  | [] => ([], [], true)
  | fid :: rest =>
    match env.gainFishXp fid with
    | none => ([], [], false)
    | some tx =>
      let r := grantFishLoop env amount rest
      ((fid, amount) :: r.1, (fid, tx) :: r.2.1, r.2.2)

/-- The per-fish sync_queue insert loop: one row per collected fish
transaction, skipping entries whose insert fails. -/
def syncInsertFish (env : FeedEnv) (db : DB) :
    List (Int × String) → DB
  | [] => db
  | ft :: rest =>
    if env.syncInsertFails ft.2 then syncInsertFish env db rest
    else syncInsertFish env
      { db with sync_queue := db.sync_queue ++
        [⟨ft.2, "fish", toString ft.1, "pending"⟩] } rest

/-- Append the sync_queue rows for the fish grants and the player grant,
skipping entries whose insert fails. -/
def appendSyncRows (db : DB) (env : FeedEnv)
    (fishTxs : List (Int × String)) (playerTx : String) (owner : String) :
    DB :=
  let withFish := syncInsertFish env db fishTxs
  if env.syncInsertFails playerTx then withFish
  else { withFish with sync_queue := withFish.sync_queue ++
    [⟨playerTx, "player", owner, "pending"⟩] }

/-- The validation stage of FishService.feedFishBatch: input checks,
the single batch fish query, the exact-count check and the exact-owner
check, in source order.  Returns the fetched batch on success. -/
def feedValidate (db : DB) (env : FeedEnv) (fishIds : List Int)
    (owner : String) : Except Err (List FishRow) :=
  if fishIds = [] then .error .emptyFishIds
  else
    match firstInvalidId fishIds with
    | some bad => .error (.invalidFishIdInput bad)
    | none =>
      if strTrim owner = "" then .error .addressRequired
      else if isStarknetAddress (strTrim owner) = false then
        .error .invalidAddressFormat
      else if env.fishQueryFails then .error .dbError
      else
        let fishList := db.fish.filter (fun f => (f.id : Int) ∈ fishIds)
        if fishList = [] then .error .noneExist
        else if fishList.length ≠ fishIds.length then
          let foundIds := fishList.map (fun f => (f.id : Int))
          .error (.missingFish (fishIds.filter (fun i => i ∉ foundIds)))
        else
          let invalidOwnership := fishList.filter
            (fun f => f.owner ≠ strTrim owner)
          if invalidOwnership ≠ [] then
            .error (.wrongOwnerBatch
              (invalidOwnership.map (fun f => (f.id : Int))))
          else .ok fishList

/-- The multiplier resolution of feedFishBatch: the owner tank single-row
query (PGRST116 tolerated as `none`), then getActiveDecorationsMultiplier,
degrading to 0 on its failure. -/
def feedMultiplier (db : DB) (env : FeedEnv) (owner : String) : ℚ :=
  match (selectSingle (db.tanks.filter
      (fun t => t.owner = strTrim owner))).map (fun t => t.id) with
  | none => 0
  | some tid =>
    match getActiveDecorationsMultiplier db env.multiplierEnv (tid : Int) with
    | .error _ => 0
    | .ok decimal => decimal * 100

/-- The grant stage of feedFishBatch: the sequential per-fish on-chain
grants, the player on-chain grant, the read-then-add total_xp update, and
the best-effort sync_queue inserts. -/
def feedGrantPhase (db : DB) (env : FeedEnv) (fishIds : List Int)
    (owner : String) (finalXp : ℚ) : FeedOutcome :=
  let totalXpGained := finalXp * (fishIds.length : ℚ)
  let loop := grantFishLoop env finalXp fishIds
  if loop.2.2 = false then ⟨.error .onChainFishXp, db, loop.1, none⟩
  else
    match env.gainPlayerXp with
    | none => ⟨.error .onChainPlayerXp, db, loop.1, none⟩
    | some playerTx =>
      if env.playerFetchFails then
        ⟨.error .dbError, db, loop.1, some (playerTx, totalXpGained)⟩
      else
        match selectSingle (db.players.filter
            (fun p => p.address = strTrim owner)) with
        | none => ⟨.error .notFoundPlayer, db, loop.1, some (playerTx, totalXpGained)⟩
        | some playerData =>
          if env.playerUpdateFails then
            ⟨.error .dbError, db, loop.1, some (playerTx, totalXpGained)⟩
          else
            let newTotalXp := playerData.total_xp + totalXpGained
            let db1 := { db with players := db.players.map (fun p =>
              if p.address = strTrim owner then { p with total_xp := newTotalXp }
              else p) }
            let db2 := appendSyncRows db1 env loop.2.1 playerTx (strTrim owner)
            ⟨.ok playerTx, db2, loop.1, some (playerTx, totalXpGained)⟩

/-- FishService.feedFishBatch (the Supabase-updating variant of
`src/services/fish.service.ts`): validation, then the owner tank and
multiplier resolution, then the grant stage with the tank-wide per-fish
XP value. -/
def feedFishBatch (db : DB) (env : FeedEnv) (fishIds : List Int)
    (owner : String) : FeedOutcome :=
  match feedValidate db env fishIds owner with
  | .error e => ⟨.error e, db, [], none⟩
  | .ok _ =>
    if env.tankQueryOtherFails then ⟨.error .dbError, db, [], none⟩
    else
      feedGrantPhase db env fishIds owner
        (calculateFishXp getFeedBaseXp (feedMultiplier db env owner))

/-! ## Breeding (`FishService.breedFish`) and the tank capacity guard
(`TankService.checkTankCapacity`, `TankService.getFirstTankIdByOwner`) -/

/-- On-chain fish state enum. -/
inductive FishState where
  | Baby
  | Juvenile
  | YoungAdult
  | Adult
deriving DecidableEq, Repr

/-- On-chain projection of a fish as returned by the ledger query. -/
structure FishOnChain where
  xp : ℚ
  state : FishState
  hunger : Nat
  isReadyToBreed : Bool
  dna : String
deriving DecidableEq, Repr

/-- Combined on-chain plus off-chain fish view returned by
getFishById. -/
structure Fish where
  id : Int
  xp : ℚ
  state : FishState
  hunger : Nat
  isReadyToBreed : Bool
  dna : String
  owner : String
  species : String
  imageUrl : String
deriving DecidableEq, Repr

/-- Environment of one breedFish call (also used by the embedded fish
retrieval and capacity check). -/
structure BreedEnv where
  /-- The off-chain fish row read fails for a given id. -/
  fishRowReadFails : Int → Bool
  /-- On-chain fish query result per id; `none` is a throw. -/
  onChainFish : Int → Option FishOnChain
  /-- The tank query of getFirstTankIdByOwner reports a non-PGRST116
  failure. -/
  firstTankQueryFails : Bool
  /-- On-chain tank query: the capacity, or `none` for a throw. -/
  tankOnChain : Int → Option Nat
  /-- The fish count query of checkTankCapacity fails. -/
  capacityCountFails : Bool
  /-- On-chain breed call: transaction hash and new fish id, or `none`
  for a throw. -/
  breedResult : Option (String × Nat)
  insertOffspring : InsRes
  playerFetchFails : Bool
  playerUpdateFails : Bool

/-- FishService.getFishById: off-chain row plus on-chain projection. -/
def getFishById (db : DB) (env : BreedEnv) (id : Int) : Except Err Fish :=
  if id ≤ 0 then .error (.invalidFishIdInput id)
  else if env.fishRowReadFails id then .error .dbError
  else
    match selectSingle (db.fish.filter (fun f => (f.id : Int) = id)) with
    | none => .error (.notFoundFishId id)
    | some row =>
      match env.onChainFish id with
      | none => .error (.onChainFishQuery id)
      | some oc =>
        .ok ⟨id, oc.xp, oc.state, oc.hunger, oc.isReadyToBreed, oc.dna,
          row.owner, row.species, row.image_url⟩

/-- TankService.getFirstTankIdByOwner: the lowest tank id of the owner
(order by id ascending, limit 1), `none` when the owner has no tanks. -/
def getFirstTankIdByOwner (db : DB) (env : BreedEnv) (owner : String) :
    Except Err (Option Nat) :=
  if strTrim owner = "" then .error .addressRequired
  else if env.firstTankQueryFails then .error .dbError
  else
    let sorted := List.insertionSort (fun a b => a.id ≤ b.id)
      (db.tanks.filter (fun t => t.owner = strTrim owner))
    match sorted with
    | [] => .ok none
    | t :: _ => .ok (some t.id)

/-- TankService.checkTankCapacity: pure guard that the tank can house
`additionalFish` more fish.  Capacity comes from the ledger, the current
occupancy from the off-chain fish table. -/
def checkTankCapacity (db : DB) (env : BreedEnv) (tankId : Int)
    (additionalFish : Int) : Except Err Unit :=
  if tankId ≤ 0 then .error .invalidTankId
  else if additionalFish ≤ 0 then .error .invalidAdditionalFish
  else
    match selectSingle (db.tanks.filter (fun t => (t.id : Int) = tankId)) with
    | none => .error .notFoundTank
    | some _ =>
      match env.tankOnChain tankId with
      | none => .error (.onChainTankQuery tankId)
      | some capacity =>
        if env.capacityCountFails then .error .dbError
        else
          let currentFishCount :=
            (db.fish.filter (fun f => f.tank_id = some tankId.toNat)).length
          if (currentFishCount : Int) + additionalFish > (capacity : Int) then
            .error (.tankFull tankId currentFishCount capacity)
          else .ok ()

/-- Outcome of a breedFish call. -/
structure BreedOutcome where
  result : Except Err Fish
  db : DB
deriving DecidableEq, Repr

/-- FishService.breedFish: precondition checks (self-breed, id and
address validation, ownership, adulthood, readiness), tank resolution and
capacity guard, the on-chain breed call, the offspring insert with the
race-tolerant unique-violation handling, the player statistics update,
and the final re-fetch of the offspring. -/
def breedFish (db : DB) (env : BreedEnv) (fish1Id fish2Id : Int)
    (owner : String) : BreedOutcome :=
  if fish1Id = fish2Id then ⟨.error .selfBreed, db⟩
  else if fish1Id ≤ 0 then ⟨.error (.invalidFishIdInput fish1Id), db⟩
  else if fish2Id ≤ 0 then ⟨.error (.invalidFishIdInput fish2Id), db⟩
  else if strTrim owner = "" then ⟨.error .addressRequired, db⟩
  else if isStarknetAddress (strTrim owner) = false then
    ⟨.error .invalidAddressFormat, db⟩
  else
    let trimmedOwner := strTrim owner
    match getFishById db env fish1Id with
    | .error e => ⟨.error e, db⟩
    | .ok fish1 =>
      match getFishById db env fish2Id with
      | .error e => ⟨.error e, db⟩
      | .ok fish2 =>
        if fish1.owner ≠ trimmedOwner then ⟨.error (.wrongOwnerFish fish1Id), db⟩
        else if fish2.owner ≠ trimmedOwner then ⟨.error (.wrongOwnerFish fish2Id), db⟩
        else if fish1.state ≠ FishState.Adult then ⟨.error (.notAdult fish1Id), db⟩
        else if fish2.state ≠ FishState.Adult then ⟨.error (.notAdult fish2Id), db⟩
        else if fish1.isReadyToBreed = false then ⟨.error (.notReady fish1Id), db⟩
        else if fish2.isReadyToBreed = false then ⟨.error (.notReady fish2Id), db⟩
        else
          match getFirstTankIdByOwner db env trimmedOwner with
          | .error e => ⟨.error e, db⟩
          | .ok none => ⟨.error .noTank, db⟩
          | .ok (some tankId) =>
            match checkTankCapacity db env (tankId : Int) 1 with
            | .error e => ⟨.error e, db⟩
            | .ok _ =>
              match env.breedResult with
              | none => ⟨.error .onChainBreed, db⟩
              | some breedRes =>
                let newFishId := breedRes.2
                let offspring : FishRow :=
                  ⟨newFishId, trimmedOwner, fish1.species, fish1.imageUrl,
                    some tankId, some fish1Id.toNat, some fish2Id.toNat⟩
                let afterInsert : Except Err DB :=
                  match env.insertOffspring with
                  | .ok => .ok { db with fish := db.fish ++ [offspring] }
                  | .uniq =>
                    match selectSingle (db.fish.filter
                      (fun f => f.id = newFishId)) with
                    | some existing =>
                      if existing.owner = trimmedOwner then .ok db
                      else .error (.fishIdConflict newFishId)
                    | none => .error (.fishIdConflict newFishId)
                  | .errOther => .error .dbError
                  | .noData => .error .dbError
                match afterInsert with
                | .error e => ⟨.error e, db⟩
                | .ok db1 =>
                  if env.playerFetchFails then ⟨.error .dbError, db1⟩
                  else
                    match selectSingle (db1.players.filter
                      (fun p => p.address = trimmedOwner)) with
                    | none => ⟨.error .notFoundPlayer, db1⟩
                    | some _playerData =>
                      if env.playerUpdateFails then ⟨.error .dbError, db1⟩
                      else
                        let bump := fun (p : PlayerRow) =>
                          if p.address = trimmedOwner then
                            { p with offspring_created := p.offspring_created + 1,
                                     fish_count := p.fish_count + 1 }
                          else p
                        let db2 := { db1 with players := db1.players.map bump }
                        ⟨getFishById db2 env (newFishId : Int), db2⟩

/-! ## Id counters (`src/core/utils/dojo-client.ts`) -/

/-- Module-level counter state of the dojo client stub. -/
structure CounterState where
  fishCounter : Nat
  tankCounter : Nat
  countersInitialized : Bool
  lastKnownFishMaxId : Option Nat
  lastKnownTankMaxId : Option Nat
deriving DecidableEq, Repr

/-- Initial module state: counters at zero, nothing remembered. -/
def initialCounterState : CounterState := ⟨0, 0, false, none, none⟩

/-- What one max-id store read reports: the store is empty (the PGRST116
condition of `.single()` on an empty ordered selection), a maximum id, a
non-PGRST116 error value, or a thrown exception that aborts syncCounters
through its catch block. -/
inductive MaxQuery where
  | empty
  | maxId (n : Nat)
  | otherErr
  | threw
deriving DecidableEq, Repr

/-- Environment of one syncCounters call: the outcome of the fish max-id
read and of the tank max-id read. -/
structure SyncEnv where
  fishQ : MaxQuery
  tankQ : MaxQuery
deriving DecidableEq, Repr

/-- The fish half of syncCounters: how the fish counter and the
remembered fish max react to one read outcome.  A zero max id is falsy in
the source (`fishData?.id`) and is ignored like an error value. -/
def syncFishPart (s : CounterState) (q : MaxQuery) : CounterState :=
  match q with
  | .empty =>
    if s.countersInitialized = false then
      { s with fishCounter := 0, lastKnownFishMaxId := none }
    else
      match s.lastKnownFishMaxId with
      | some m =>
        if m > 0 then { s with fishCounter := 0, lastKnownFishMaxId := none }
        else s
      | none => s
  | .maxId n =>
    if n ≠ 0 then
      { s with fishCounter := max s.fishCounter n, lastKnownFishMaxId := some n }
    else s
  | .otherErr => s
  | .threw => s

/-- The tank half of syncCounters, symmetric to the fish half. -/
def syncTankPart (s : CounterState) (q : MaxQuery) : CounterState :=
  match q with
  | .empty =>
    if s.countersInitialized = false then
      { s with tankCounter := 0, lastKnownTankMaxId := none }
    else
      match s.lastKnownTankMaxId with
      | some m =>
        if m > 0 then { s with tankCounter := 0, lastKnownTankMaxId := none }
        else s
      | none => s
  | .maxId n =>
    if n ≠ 0 then
      { s with tankCounter := max s.tankCounter n, lastKnownTankMaxId := some n }
    else s
  | .otherErr => s
  | .threw => s

/-- syncCounters: reads fish then tank max ids; a thrown read aborts into
the catch block, which only marks the state initialized.  A throw during
the fish read skips the tank read entirely. -/
def syncCounters (s : CounterState) (env : SyncEnv) : CounterState :=
  if env.fishQ = .threw then { s with countersInitialized := true }
  else
    let s1 := syncFishPart s env.fishQ
    if env.tankQ = .threw then { s1 with countersInitialized := true }
    else
      let s2 := syncTankPart s1 env.tankQ
      { s2 with countersInitialized := true }

/-- getNextFishId: sync, then increment and return. -/
def getNextFishId (s : CounterState) (env : SyncEnv) : CounterState × Nat :=
  let s1 := syncCounters s env
  ({ s1 with fishCounter := s1.fishCounter + 1 }, s1.fishCounter + 1)

/-- getNextTankId: sync, then increment and return. -/
def getNextTankId (s : CounterState) (env : SyncEnv) : CounterState × Nat :=
  let s1 := syncCounters s env
  ({ s1 with tankCounter := s1.tankCounter + 1 }, s1.tankCounter + 1)

/-! ## Genealogy (`src/core/utils/fish-genealogy.ts`) -/

/-- One entry of a family tree: a fish id with its parent references and
the generation at which the traversal reached it. -/
structure FishFamilyMember where
  id : Nat
  parent1_id : Option Nat
  parent2_id : Option Nat
  generation : Nat
deriving DecidableEq, Repr

/-- Result of buildFishFamilyTree. -/
structure FishFamilyTree where
  fish_id : Nat
  ancestors : List FishFamilyMember
  descendants : List FishFamilyMember
  generation_count : Nat
  descendant_generation_count : Nat
deriving DecidableEq, Repr

/-- Hard generation ceiling MAX_GENERATION_DEPTH. -/
def MAX_GENERATION_DEPTH : Nat := 50

/-- Single-row fish lookup by id, with the `.single()` semantics. -/
def gLookup (t : List FishRow) (i : Nat) : Option FishRow :=
  selectSingle (t.filter (fun f => f.id = i))

/-- Mutable traversal state of one direction: the visited id set, the
accumulated members, and the maximal generation seen. -/
structure GState where
  visited : List Nat
  acc : List FishFamilyMember
  maxGen : Nat
deriving DecidableEq, Repr

/-- fetchAncestors: processes parent 1 then parent 2 of the current fish.
A parent already visited is skipped; a parent missing from the table is
marked visited and skipped silently; a found parent is appended at the
current generation and its own parents are processed one generation
deeper.  Entering a call beyond MAX_GENERATION_DEPTH throws
ValidationError.  The fuel argument only bounds the recursion for the
embedding; the termination theorem shows it is never exhausted when it
starts at the table size plus one. -/
def fetchAncestors : Nat → List FishRow → GState → Option Nat →
    Option Nat → Nat → Except Err GState
  | 0, _, _, _, _, _ => .error .outOfFuel
  | fuel + 1, t, st, p1, p2, generation =>
    if generation > MAX_GENERATION_DEPTH then .error (.maxDepth generation)
    else
      let afterP1 : Except Err GState :=
        match p1 with
        | none => .ok st
        | some p =>
          if p ∈ st.visited then .ok st
          else
            match gLookup t p with
            | none => .ok { st with visited := st.visited ++ [p] }
            | some row =>
              fetchAncestors fuel t
                ⟨st.visited ++ [p],
                 st.acc ++ [⟨row.id, row.parent1_id, row.parent2_id, generation⟩],
                 max st.maxGen generation⟩
                row.parent1_id row.parent2_id (generation + 1)
      match afterP1 with
      | .error e => .error e
      | .ok st1 =>
        match p2 with
        | none => .ok st1
        | some p =>
          if p ∈ st1.visited then .ok st1
          else
            match gLookup t p with
            | none => .ok { st1 with visited := st1.visited ++ [p] }
            | some row =>
              fetchAncestors fuel t
                ⟨st1.visited ++ [p],
                 st1.acc ++ [⟨row.id, row.parent1_id, row.parent2_id, generation⟩],
                 max st1.maxGen generation⟩
                row.parent1_id row.parent2_id (generation + 1)

/-- One parent of the ancestor traversal, as performed inline by
fetchAncestors at the next smaller fuel. -/
def parentStep (fuel : Nat) (t : List FishRow) (st : GState)
    (p : Option Nat) (generation : Nat) : Except Err GState :=
  match p with
  | none => .ok st
  | some q =>
    if q ∈ st.visited then .ok st
    else
      match gLookup t q with
      | none => .ok { st with visited := st.visited ++ [q] }
      | some row =>
        fetchAncestors fuel t
          ⟨st.visited ++ [q],
           st.acc ++ [⟨row.id, row.parent1_id, row.parent2_id, generation⟩],
           max st.maxGen generation⟩
          row.parent1_id row.parent2_id (generation + 1)

/-- The body of fetchAncestors is parentStep on parent 1 and then on
parent 2. -/
theorem fetchAncestors_succ (fuel : Nat) (t : List FishRow) (st : GState)
    (p1 p2 : Option Nat) (generation : Nat) :
    fetchAncestors (fuel + 1) t st p1 p2 generation =
      if generation > MAX_GENERATION_DEPTH then .error (.maxDepth generation)
      else
        match parentStep fuel t st p1 generation with
        | .error e => .error e
        | .ok st1 => parentStep fuel t st1 p2 generation := by
  cases p1 <;> rfl

/-- The child loop of fetchDescendants as an error-absorbing fold: each
unvisited child is appended at the current generation and its own
descendants are fetched one generation deeper; a thrown error aborts the
rest of the loop. -/
def goChildrenF (rec : GState → Nat → Nat → Except Err GState)
    (children : List FishRow) (st : GState) (generation : Nat) :
    Except Err GState :=
  children.foldl
    (fun acc c =>
      match acc with
      | .error e => .error e
      | .ok s =>
        if c.id ∈ s.visited then .ok s
        else
          rec
            ⟨s.visited ++ [c.id],
             s.acc ++ [⟨c.id, c.parent1_id, c.parent2_id, generation⟩],
             max s.maxGen generation⟩
            c.id (generation + 1))
    (Except.ok st)

/-- fetchDescendants: finds the children of the given fish (rows whose
parent1_id or parent2_id equals it) and processes them in table order
through the child loop. -/
def fetchDescendants : Nat → List FishRow → GState → Nat → Nat →
    Except Err GState
  | 0, _, _, _, _ => .error .outOfFuel
  | fuel + 1, t, st, parentId, generation =>
    if generation > MAX_GENERATION_DEPTH then .error (.maxDepth generation)
    else
      let children := t.filter
        (fun f => f.parent1_id = some parentId || f.parent2_id = some parentId)
      goChildrenF (fetchDescendants fuel t) children st generation

/-- The child loop with the recursion instantiated at a fixed fuel. -/
def goChildren (fuel : Nat) (t : List FishRow) (st : GState)
    (children : List FishRow) (generation : Nat) : Except Err GState :=
  goChildrenF (fetchDescendants fuel t) children st generation

/-- The body of fetchDescendants is the child loop over the filtered
children. -/
theorem fetchDescendants_succ (fuel : Nat) (t : List FishRow) (st : GState)
    (parentId generation : Nat) :
    fetchDescendants (fuel + 1) t st parentId generation =
      if generation > MAX_GENERATION_DEPTH then .error (.maxDepth generation)
      else
        goChildren fuel t st
          (t.filter (fun f => f.parent1_id = some parentId ||
            f.parent2_id = some parentId)) generation := rfl

/-- An error absorbs the rest of the child loop. -/
theorem goChildrenF_error (rec : GState → Nat → Nat → Except Err GState)
    (children : List FishRow) (e : Err) (generation : Nat) :
    children.foldl
      (fun acc c =>
        match acc with
        | .error e => .error e
        | .ok s =>
          if c.id ∈ s.visited then .ok s
          else
            rec
              ⟨s.visited ++ [c.id],
               s.acc ++ [⟨c.id, c.parent1_id, c.parent2_id, generation⟩],
               max s.maxGen generation⟩
              c.id (generation + 1))
      (Except.error e : Except Err GState) = .error e := by
  induction children with
  | nil => rfl
  | cons c rest ih => exact ih

/-- Unfolding the child loop on an empty child list. -/
theorem goChildren_nil (fuel : Nat) (t : List FishRow) (st : GState)
    (generation : Nat) :
    goChildren fuel t st [] generation = .ok st := rfl

/-- Unfolding the child loop on a visited head child. -/
theorem goChildren_cons_visited (fuel : Nat) (t : List FishRow)
    (st : GState) (c : FishRow) (rest : List FishRow) (generation : Nat)
    (h : c.id ∈ st.visited) :
    goChildren fuel t st (c :: rest) generation =
      goChildren fuel t st rest generation := by
  simp only [goChildren, goChildrenF, List.foldl_cons, if_pos h]

/-- Unfolding the child loop on an unvisited head child. -/
theorem goChildren_cons_new (fuel : Nat) (t : List FishRow) (st : GState)
    (c : FishRow) (rest : List FishRow) (generation : Nat)
    (h : c.id ∉ st.visited) :
    goChildren fuel t st (c :: rest) generation =
      match fetchDescendants fuel t
          ⟨st.visited ++ [c.id],
           st.acc ++ [⟨c.id, c.parent1_id, c.parent2_id, generation⟩],
           max st.maxGen generation⟩ c.id (generation + 1) with
      | .error e => .error e
      | .ok st2 => goChildren fuel t st2 rest generation := by
  simp only [goChildren, goChildrenF, List.foldl_cons, if_neg h]
  cases fetchDescendants fuel t
      ⟨st.visited ++ [c.id],
       st.acc ++ [⟨c.id, c.parent1_id, c.parent2_id, generation⟩],
       max st.maxGen generation⟩ c.id (generation + 1) with
  | error e => exact goChildrenF_error _ rest e generation
  | ok st2 => rfl

/-- Fuel used by the traversal: one more than the table size (the
termination theorem shows this always suffices). -/
def genealogyFuel (t : List FishRow) : Nat := t.length + 1

/-- Ascending-by-generation comparison used by the final sorts. -/
def byGeneration (a b : FishFamilyMember) : Prop :=
  a.generation ≤ b.generation

instance : DecidableRel byGeneration := fun a b =>
  inferInstanceAs (Decidable (a.generation ≤ b.generation))

/-- buildFishFamilyTree: root existence check, the ancestor traversal
seeded with the root at generation 0, the descendant traversal with a
fresh visited set, and the final sorts by generation. -/
def buildFishFamilyTree (t : List FishRow) (fishId : Int) :
    Except Err FishFamilyTree :=
  if fishId ≤ 0 then .error (.invalidFishIdInput fishId)
  else
    let rootId := fishId.toNat
    match gLookup t rootId with
    | none => .error (.notFoundFishId fishId)
    | some rootFish =>
      let st0 : GState :=
        ⟨[rootId],
         [⟨rootFish.id, rootFish.parent1_id, rootFish.parent2_id, 0⟩], 0⟩
      match fetchAncestors (genealogyFuel t) t st0 rootFish.parent1_id
          rootFish.parent2_id 1 with
      | .error e => .error e
      | .ok stA =>
        match fetchDescendants (genealogyFuel t) t ⟨[rootId], [], 0⟩
            rootId 1 with
        | .error e => .error e
        | .ok stD =>
          .ok ⟨rootId,
               stA.acc.insertionSort byGeneration,
               stD.acc.insertionSort byGeneration,
               stA.maxGen, stD.maxGen⟩

/-! ## Concrete fixtures used by witnesses and counterexamples -/

/-- A pattern-valid Starknet address (0x plus 63 hex digits). -/
def addrW : String := "0x" ++ String.mk (List.replicate 63 'a')

/-- A second pattern-valid address, distinct from `addrW`. -/
def addrO : String := "0x" ++ String.mk (List.replicate 63 'b')

/-- Registered player owning nothing. -/
def playerW : PlayerRow := ⟨addrW, 0, 0, 0, 0, 0, none⟩

/-- Empty store. -/
def dbEmpty : DB := ⟨[], [], [], [], []⟩

/-- Store with one registered player owning nothing. -/
def dbClean : DB := ⟨[playerW], [], [], [], []⟩

/-- Store whose player row carries a stale positive fish_count although
the player owns no fish and no tank. -/
def dbStaleCount : DB := ⟨[⟨addrW, 0, 1, 0, 0, 0, none⟩], [], [], [], []⟩

/-- Fully successful starter-pack environment. -/
def mintEnvOk : MintEnv :=
  ⟨false, false, false, some ⟨"t1", 1⟩, some ⟨"f1", 1⟩, some ⟨"f2", 2⟩,
    .ok, .ok, .ok, .ok, fun _ => false, fun _ => false⟩

/-- Fully successful registration environment. -/
def regEnvOk : RegEnv := ⟨false, .ok, false, true, mintEnvOk, false⟩

/-- Fully successful feeding environment. -/
def feedEnvOk : FeedEnv :=
  ⟨false, false, ⟨false, false⟩, fun i => some ("ftx" ++ toString i),
    some "ptx", false, false, fun _ => false⟩

/-- Feeding fixture: the player owns two fish housed in one tank and one
active Plant decoration (5 percent). -/
def dbFeed : DB :=
  ⟨[⟨addrW, 0, 2, 0, 0, 0, none⟩],
   [⟨1, addrW, "Goldfish", "g.png", some 1, none, none⟩,
    ⟨2, addrW, "Goldfish", "g.png", some 1, none, none⟩],
   [⟨1, addrW, "Tank A"⟩],
   [⟨1, addrW, "Plant", true⟩],
   []⟩

/-- The same fixture with a second tank for the owner: with two tanks the
single-row tank query of feedFishBatch reports PGRST116. -/
def dbFeedTwoTanks : DB :=
  ⟨[⟨addrW, 0, 2, 0, 0, 0, none⟩],
   [⟨1, addrW, "Goldfish", "g.png", some 1, none, none⟩,
    ⟨2, addrW, "Goldfish", "g.png", some 1, none, none⟩],
   [⟨1, addrW, "Tank A"⟩, ⟨2, addrW, "Tank B"⟩],
   [⟨1, addrW, "Plant", true⟩],
   []⟩

/-- On-chain projection of an adult fish ready to breed. -/
def adultFishOC : FishOnChain := ⟨400, .Adult, 50, true, "0xdna"⟩

/-- Fully successful breeding environment: both parents adult and ready,
tank capacity 10, offspring id 3. -/
def breedEnvOk : BreedEnv :=
  ⟨fun _ => false, fun _ => some adultFishOC, false, fun _ => some 10,
    false, some ("btx", 3), .ok, false, false⟩

/-- Breeding fixture: a player with two adult fish in one tank. -/
def dbBreed : DB :=
  ⟨[⟨addrW, 0, 2, 0, 0, 0, none⟩],
   [⟨1, addrW, "Goldfish", "g.png", some 1, none, none⟩,
    ⟨2, addrW, "Goldfish", "g.png", some 1, none, none⟩],
   [⟨1, addrW, "Tank A"⟩],
   [],
   []⟩

/-- Genealogy fixture helper: a fish row carrying only what the
traversal reads. -/
def mkFishG (i : Nat) (p1 p2 : Option Nat) : FishRow :=
  ⟨i, "o", "s", "u", none, p1, p2⟩

/-- A single parentless fish. -/
def tSingle : List FishRow := [mkFishG 1 none none]

/-- Two fish whose parent references form a cycle. -/
def tCycle : List FishRow := [mkFishG 1 (some 2) none, mkFishG 2 (some 1) none]

/-- Diamond: fish 1 has parents 2 and 3, and 3 is also the parent of 2. -/
def tDiamond : List FishRow :=
  [mkFishG 1 (some 2) (some 3), mkFishG 2 (some 3) none, mkFishG 3 none none]

/-- Linear ancestor chain: fish 1 … n+1 where fish k has parent k+1 for
k ≤ n, so fish 1 has exactly n ancestor generations. -/
def chainT (n : Nat) : List FishRow :=
  (List.range (n + 1)).map (fun k =>
    if k < n then mkFishG (k + 1) (some (k + 2)) none
    else mkFishG (k + 1) none none)


/-- Breeding environment whose on-chain tank capacity is 2, so the
two-fish tank of dbBreed cannot take the offspring. -/
def breedEnvCap : BreedEnv :=
  ⟨fun _ => false, fun _ => some adultFishOC, false, fun _ => some 2,
    false, some ("btx", 3), .ok, false, false⟩

/-! ## Theorems -/

/-- Projections of syncCounters. -/
theorem syncCounters_fish_proj (s : CounterState) (env : SyncEnv) :
    (syncCounters s env).fishCounter =
      (if env.fishQ = .threw then s else syncFishPart s env.fishQ).fishCounter ∧
    (syncCounters s env).lastKnownFishMaxId =
      (if env.fishQ = .threw then s else syncFishPart s env.fishQ).lastKnownFishMaxId := by
  obtain ⟨fc, tc, ci, lf, lt⟩ := s
  obtain ⟨fq, tq⟩ := env
  cases fq <;> cases tq <;>
    simp [syncCounters, syncFishPart, syncTankPart] <;>
    constructor <;> (repeat' split) <;> simp

theorem syncCounters_tank_proj (s : CounterState) (env : SyncEnv) :
    (syncCounters s env).tankCounter =
      (if env.fishQ = .threw ∨ env.tankQ = .threw then s
        else syncTankPart s env.tankQ).tankCounter ∧
    (syncCounters s env).lastKnownTankMaxId =
      (if env.fishQ = .threw ∨ env.tankQ = .threw then s
        else syncTankPart s env.tankQ).lastKnownTankMaxId := by
  obtain ⟨fc, tc, ci, lf, lt⟩ := s
  obtain ⟨fq, tq⟩ := env
  cases fq <;> cases tq <;>
    simp [syncCounters, syncFishPart, syncTankPart] <;>
    constructor <;> (repeat' split) <;> simp_all

theorem syncCounters_initialized (s : CounterState) (env : SyncEnv) :
    (syncCounters s env).countersInitialized = true := by
  obtain ⟨fc, tc, ci, lf, lt⟩ := s
  obtain ⟨fq, tq⟩ := env
  cases fq <;> cases tq <;> simp [syncCounters, syncFishPart, syncTankPart]
theorem syncFishPart_reset_char (s : CounterState) (q : MaxQuery)
    (hinit : s.countersInitialized = false → s.fishCounter = 0) :
    (syncFishPart s q).fishCounter = 0 → 0 < s.fishCounter →
      q = .empty ∧ ∃ m, s.lastKnownFishMaxId = some m ∧ 0 < m := by
  obtain ⟨fc, tc, ci, lf, lt⟩ := s
  cases q <;> cases ci <;> cases lf <;>
    simp_all [syncFishPart] <;> split_ifs <;> simp_all <;> omega

theorem syncTankPart_reset_char (s : CounterState) (q : MaxQuery)
    (hinit : s.countersInitialized = false → s.tankCounter = 0) :
    (syncTankPart s q).tankCounter = 0 → 0 < s.tankCounter →
      q = .empty ∧ ∃ m, s.lastKnownTankMaxId = some m ∧ 0 < m := by
  obtain ⟨fc, tc, ci, lf, lt⟩ := s
  cases q <;> cases ci <;> cases lt <;>
    simp_all [syncTankPart] <;> split_ifs <;> simp_all <;> omega

theorem syncFishPart_last_pos (s : CounterState) (q : MaxQuery)
    (hfm : ∀ m, s.lastKnownFishMaxId = some m → 0 < m) :
    ∀ m, (syncFishPart s q).lastKnownFishMaxId = some m → 0 < m := by
  obtain ⟨fc, tc, ci, lf, lt⟩ := s
  cases q <;> cases ci <;> cases lf <;>
    simp_all [syncFishPart] <;> split_ifs <;> simp_all <;> omega

theorem syncTankPart_last_pos (s : CounterState) (q : MaxQuery)
    (htm : ∀ m, s.lastKnownTankMaxId = some m → 0 < m) :
    ∀ m, (syncTankPart s q).lastKnownTankMaxId = some m → 0 < m := by
  obtain ⟨fc, tc, ci, lf, lt⟩ := s
  cases q <;> cases ci <;> cases lt <;>
    simp_all [syncTankPart] <;> split_ifs <;> simp_all <;> omega
/-- C9: the allocation counters of the dojo client reset to 0 only on an
observed transition of the store from a remembered positive maximum id to
empty, never while the store has been empty since initialization during
consecutive allocations; and a failing store read leaves the counter
untouched while the allocation still returns the incremented in-memory
value instead of erroring.  The hypotheses are the state invariant, which
holds at the initial module state and is preserved by every allocation. -/
theorem counter_reset_discipline (s : CounterState) (env : SyncEnv)
    (hinit : s.countersInitialized = false →
      s.fishCounter = 0 ∧ s.lastKnownFishMaxId = none ∧
      s.tankCounter = 0 ∧ s.lastKnownTankMaxId = none)
    (hfm : ∀ m, s.lastKnownFishMaxId = some m → 0 < m)
    (htm : ∀ m, s.lastKnownTankMaxId = some m → 0 < m) :
    ((initialCounterState.countersInitialized = false →
      initialCounterState.fishCounter = 0 ∧
      initialCounterState.lastKnownFishMaxId = none ∧
      initialCounterState.tankCounter = 0 ∧
      initialCounterState.lastKnownTankMaxId = none) ∧
     (∀ m, initialCounterState.lastKnownFishMaxId = some m → 0 < m) ∧
     (∀ m, initialCounterState.lastKnownTankMaxId = some m → 0 < m)) ∧
    (((getNextFishId s env).1.countersInitialized = false →
      (getNextFishId s env).1.fishCounter = 0 ∧
      (getNextFishId s env).1.lastKnownFishMaxId = none ∧
      (getNextFishId s env).1.tankCounter = 0 ∧
      (getNextFishId s env).1.lastKnownTankMaxId = none) ∧
     (∀ m, (getNextFishId s env).1.lastKnownFishMaxId = some m → 0 < m) ∧
     (∀ m, (getNextFishId s env).1.lastKnownTankMaxId = some m → 0 < m)) ∧
    ((syncCounters s env).fishCounter = 0 → 0 < s.fishCounter →
      env.fishQ = .empty ∧ ∃ m, s.lastKnownFishMaxId = some m ∧ 0 < m) ∧
    ((syncCounters s env).tankCounter = 0 → 0 < s.tankCounter →
      env.tankQ = .empty ∧ ∃ m, s.lastKnownTankMaxId = some m ∧ 0 < m) ∧
    (s.lastKnownFishMaxId = none → s.countersInitialized = true →
      env.fishQ = .empty → (syncCounters s env).fishCounter = s.fishCounter) ∧
    (env.fishQ = .threw →
      getNextFishId s env =
        ({ s with countersInitialized := true, fishCounter := s.fishCounter + 1 },
          s.fishCounter + 1)) ∧
    ((getNextFishId s env).2 = (syncCounters s env).fishCounter + 1) := by
  obtain ⟨hcf, hlf⟩ := syncCounters_fish_proj s env
  obtain ⟨hct, hlt⟩ := syncCounters_tank_proj s env
  refine ⟨⟨by simp [initialCounterState], by simp [initialCounterState],
    by simp [initialCounterState]⟩, ⟨?_, ?_, ?_⟩, ?_, ?_, ?_, ?_, rfl⟩
  · intro h
    exact absurd (show (getNextFishId s env).1.countersInitialized = true by
      simp [getNextFishId, syncCounters_initialized]) (by simp [h])
  · intro m hm
    have : (getNextFishId s env).1.lastKnownFishMaxId =
        (syncCounters s env).lastKnownFishMaxId := by
      simp [getNextFishId]
    rw [this, hlf] at hm
    split at hm
    · exact hfm m hm
    · exact syncFishPart_last_pos s env.fishQ hfm m hm
  · intro m hm
    have : (getNextFishId s env).1.lastKnownTankMaxId =
        (syncCounters s env).lastKnownTankMaxId := by
      simp [getNextFishId]
    rw [this, hlt] at hm
    split at hm
    · exact htm m hm
    · exact syncTankPart_last_pos s env.tankQ htm m hm
  · intro hz hpos
    rw [hcf] at hz
    split at hz
    · omega
    · exact syncFishPart_reset_char s env.fishQ
        (fun h => (hinit h).1) hz hpos
  · intro hz hpos
    rw [hct] at hz
    split at hz
    · omega
    · exact syncTankPart_reset_char s env.tankQ
        (fun h => (hinit h).2.2.1) hz hpos
  · intro hnone hinitd hq
    rw [hcf, if_neg (by simp [hq])]
    simp [syncFishPart, hq, hinitd, hnone]
  · intro hq
    obtain ⟨fc, tc, ci, lf, lt⟩ := s
    simp [getNextFishId, syncCounters, hq]

/-- C9 witness: a failing store read at the very first allocation keeps
the counter at its in-memory value and issues id 1. -/
theorem counter_reset_discipline_witness :
    getNextFishId initialCounterState ⟨.threw, .threw⟩ =
      ({ initialCounterState with countersInitialized := true, fishCounter := 1 }, 1) := by
  have h := counter_reset_discipline initialCounterState ⟨.threw, .threw⟩
    (by intro h; simp [initialCounterState]) (by simp [initialCounterState])
    (by simp [initialCounterState])
  exact h.2.2.2.2.2.1 rfl


/-- A one-element take is empty exactly when the list is empty. -/
theorem take_one_eq_nil_iff {α : Type} (l : List α) :
    l.take 1 = [] ↔ l = [] := by
  cases l <;> simp

/-- C2 (amended): mintStarterPack enforces its preconditions before any
mutation.  An absent player row raises the register-first ValidationError
(not NotFoundError); the ownership checks run two independent existence
queries against the tanks and fish tables, each hit raising ConflictError
naming the check; and in addition the possibly-stale fish_count field of
the player row is consulted, a positive value raising ConflictError even
when both existence queries come back empty. -/
theorem mintStarterPack_precondition_checks (db : DB) (env : MintEnv)
    (address : String)
    (haddr : strTrim address ≠ "")
    (hpq : env.playerQueryFails = false)
    (htq : env.tanksQueryFails = false)
    (hfq : env.fishCountQueryFails = false) :
    (selectSingle (db.players.filter (fun p => p.address = strTrim address)) = none →
      mintStarterPack db env address = ⟨.error .registerFirst, db, []⟩ ∧
      Err.kind .registerFirst = .validationE ∧
      Err.kind .registerFirst ≠ .notFoundE) ∧
    (∀ player,
      selectSingle (db.players.filter (fun p => p.address = strTrim address)) =
        some player →
      (db.tanks.filter (fun t => t.owner = strTrim address) ≠ [] →
        mintStarterPack db env address = ⟨.error .conflictTankExists, db, []⟩ ∧
        Err.kind .conflictTankExists = .conflictE) ∧
      (db.tanks.filter (fun t => t.owner = strTrim address) = [] →
       db.fish.filter (fun f => f.owner = strTrim address) ≠ [] →
        mintStarterPack db env address =
          ⟨.error (.conflictFishExist
            (db.fish.filter (fun f => f.owner = strTrim address)).length), db, []⟩ ∧
        Err.kind (.conflictFishExist
          (db.fish.filter (fun f => f.owner = strTrim address)).length) = .conflictE) ∧
      (db.tanks.filter (fun t => t.owner = strTrim address) = [] →
       db.fish.filter (fun f => f.owner = strTrim address) = [] →
       player.fish_count ≠ 0 →
        mintStarterPack db env address = ⟨.error .conflictFishCount, db, []⟩ ∧
        Err.kind .conflictFishCount = .conflictE)) := by
  constructor
  · intro hnone
    refine ⟨?_, rfl, by decide⟩
    simp [mintStarterPack, haddr, hpq, hnone]
  · intro player hplayer
    refine ⟨?_, ?_, ?_⟩
    · intro htank
      refine ⟨?_, rfl⟩
      have htake : (db.tanks.filter (fun t => t.owner = strTrim address)).take 1 ≠ [] := by
        rw [Ne, take_one_eq_nil_iff]
        exact htank
      simp [mintStarterPack, haddr, hpq, hplayer, htq, htake]
    · intro htank hfish
      refine ⟨?_, rfl⟩
      have htake : (db.tanks.filter (fun t => t.owner = strTrim address)).take 1 = [] := by
        rw [take_one_eq_nil_iff]
        exact htank
      have hlen : 0 < (db.fish.filter (fun f => f.owner = strTrim address)).length :=
        List.length_pos.mpr hfish
      simp [mintStarterPack, haddr, hpq, hplayer, htq, htake, hfq, hlen]
    · intro htank hfish hcount
      refine ⟨?_, rfl⟩
      have htake : (db.tanks.filter (fun t => t.owner = strTrim address)).take 1 = [] := by
        rw [take_one_eq_nil_iff]
        exact htank
      simp [mintStarterPack, haddr, hpq, hplayer, htq, htake, hfq, hfish,
        Nat.pos_of_ne_zero hcount]

/-- C2 counterexample: the precondition checks do rely on the stale
fish_count field.  Two stores that differ only in the player fish_count
field, the player owning no tank and no fish in both, produce different
outcomes: the clean store mints the pack, the stale store raises
ConflictError. -/
theorem mintStarterPack_relies_on_fish_count :
    dbStaleCount.tanks = [] ∧ dbStaleCount.fish = [] ∧
    dbClean = { dbStaleCount with players := [playerW] } ∧
    (mintStarterPack dbStaleCount mintEnvOk addrW).result =
      .error .conflictFishCount ∧
    (mintStarterPack dbClean mintEnvOk addrW).result = .ok ⟨1, [1, 2]⟩ := by
  refine ⟨rfl, rfl, rfl, by decide, by decide⟩

/-- C2 witness: an unregistered address gets the register-first
ValidationError with no store change. -/
theorem mintStarterPack_precondition_checks_witness :
    mintStarterPack dbEmpty mintEnvOk addrW =
      ⟨.error .registerFirst, dbEmpty, []⟩ ∧
    Err.kind .registerFirst = .validationE := by
  have h := (mintStarterPack_precondition_checks dbEmpty mintEnvOk addrW
    (by decide) rfl rfl rfl).1 (by decide)
  exact ⟨h.1, h.2.1⟩


/-- The rollback error always names the three transaction hashes. -/
theorem starterRollbackFail_result (db : DB) (env : MintEnv)
    (rt : MintTankResult) (r1 r2 : MintFishResult)
    (ts f1 f2 : Bool) (inner : Err) :
    (starterRollbackFail db env rt r1 r2 ts f1 f2 inner).result =
      .error (.starterSaveFailed inner rt.tx_hash r1.tx_hash r2.tx_hash) := rfl

/-- The fish delete loop records one attempt per id breed, in order,
independently of delete failures. -/
theorem rollbackFish_foldl_trace (env : MintEnv) (fids : List Nat)
    (db : DB) (acc : List DelOp) :
    (fids.foldl (rollbackFishStep env) (db, acc)).2 =
      acc ++ fids.map DelOp.delFish := by
  induction fids generalizing db acc with
  | nil => simp
  | cons x xs ih =>
    simp only [List.foldl_cons, rollbackFishStep]
    split_ifs <;> rw [ih] <;> simp

/-- The delete attempts of the rollback helper are exactly the given fish
ids in order followed by the tank, regardless of which deletes fail. -/
theorem rollbackTankStep_trace (env : MintEnv) (acc : DB × List DelOp)
    (tid : Nat) :
    (rollbackTankStep env acc tid).2 = acc.2 ++ [DelOp.delTank tid] := by
  unfold rollbackTankStep
  split_ifs <;> rfl

/-- The delete attempts of the rollback helper are exactly the given fish
ids in order followed by the tank, regardless of which deletes fail. -/
theorem rollbackSupabaseInserts_trace (db : DB) (env : MintEnv)
    (tankId : Option Nat) (fishIds : List Nat) :
    (rollbackSupabaseInserts db env tankId fishIds).2 =
      fishIds.map DelOp.delFish ++
        (match tankId with
         | some tid => [DelOp.delTank tid]
         | none => []) := by
  cases tankId with
  | none =>
    show (fishIds.foldl (rollbackFishStep env) (db, [])).2 = _
    simp [rollbackFish_foldl_trace]
  | some tid =>
    show (rollbackTankStep env (fishIds.foldl (rollbackFishStep env) (db, [])) tid).2 = _
    rw [rollbackTankStep_trace, rollbackFish_foldl_trace]
    simp

/-- When no delete fails, the fish delete loop removes exactly the rows
whose ids are listed. -/
theorem rollbackFish_foldl_db (env : MintEnv) (fids : List Nat)
    (db : DB) (acc : List DelOp)
    (hnf : ∀ i ∈ fids, env.deleteFishFails i = false) :
    (fids.foldl (rollbackFishStep env) (db, acc)).1 =
      { db with fish := db.fish.filter (fun f => decide (f.id ∉ fids)) } := by
  induction fids generalizing db acc with
  | nil =>
    simp only [List.foldl_nil]
    have : (fun (f : FishRow) => decide (f.id ∉ ([] : List Nat))) =
        fun _ => true := by
      funext f
      simp
    rw [this, List.filter_true]
  | cons x xs ih =>
    rw [List.foldl_cons]
    have hx : env.deleteFishFails x = false := hnf x (by simp)
    rw [show rollbackFishStep env (db, acc) x =
      ({ db with fish := db.fish.filter (fun f => f.id ≠ x) },
        acc ++ [DelOp.delFish x]) from by simp [rollbackFishStep, hx]]
    rw [ih _ _ (fun i hi => hnf i (by simp [hi]))]
    congr 1
    rw [List.filter_filter]
    apply List.filter_congr
    intro f _
    by_cases h1 : f.id = x <;> by_cases h2 : f.id ∈ xs <;> simp [h1, h2]


/-- Under passing preconditions and successful mints, mintStarterPack is
the off-chain phase. -/
theorem mintStarterPack_offchain_reduction (db : DB) (env : MintEnv)
    (address : String) (player : PlayerRow)
    (rt : MintTankResult) (r1 r2 : MintFishResult)
    (haddr : strTrim address ≠ "")
    (hpq : env.playerQueryFails = false)
    (htq : env.tanksQueryFails = false)
    (hfq : env.fishCountQueryFails = false)
    (hplayer : selectSingle (db.players.filter
      (fun p => p.address = strTrim address)) = some player)
    (hcount : player.fish_count = 0)
    (htanks : db.tanks.filter (fun t => t.owner = strTrim address) = [])
    (hfish : db.fish.filter (fun f => f.owner = strTrim address) = [])
    (ht : env.mintTank = some rt)
    (h1 : env.mintFish1 = some r1)
    (h2 : env.mintFish2 = some r2) :
    mintStarterPack db env address =
      starterOffChainPhase db env (strTrim address) rt r1 r2 := by
  have htake : (db.tanks.filter (fun t => t.owner = strTrim address)).take 1 = [] := by
    rw [take_one_eq_nil_iff]
    exact htanks
  simp [mintStarterPack, haddr, hpq, hplayer, htq, htake, hfq, hfish, hcount,
    ht, h1, h2]

/-- Any error of the off-chain phase is the rollback error naming the
three transaction hashes. -/
theorem starterOffChainPhase_error_shape (db : DB) (env : MintEnv)
    (addr : String) (rt : MintTankResult) (r1 r2 : MintFishResult) (e : Err)
    (he : (starterOffChainPhase db env addr rt r1 r2).result = .error e) :
    ∃ inner, e = .starterSaveFailed inner rt.tx_hash r1.tx_hash r2.tx_hash := by
  unfold starterOffChainPhase at he
  cases h1 : saveTankStep db env.insertTank addr rt with
  | error e1 =>
    simp only [h1, starterRollbackFail_result] at he
    exact ⟨e1, by injection he with h; exact h.symm⟩
  | ok s1 =>
    obtain ⟨db1, ts⟩ := s1
    simp only [h1] at he
    cases h2 : saveFishStep db1 env.insertFish1 addr r1 rt.tank_id with
    | error e2 =>
      simp only [h2, starterRollbackFail_result] at he
      exact ⟨e2, by injection he with h; exact h.symm⟩
    | ok s2 =>
      obtain ⟨db2, f1s⟩ := s2
      simp only [h2] at he
      cases h3 : saveFishStep db2 env.insertFish2 addr r2 rt.tank_id with
      | error e3 =>
        simp only [h3, starterRollbackFail_result] at he
        exact ⟨e3, by injection he with h; exact h.symm⟩
      | ok s3 =>
        obtain ⟨db3, f2s⟩ := s3
        simp only [h3] at he
        cases h4 : updateFishCountStep db3 env.updatePlayer addr with
        | error e4 =>
          simp only [h4, starterRollbackFail_result] at he
          exact ⟨e4, by injection he with h; exact h.symm⟩
        | ok db4 =>
          simp only [h4] at he
          simp at he

/-- The result and the delete-attempt trace of the off-chain phase do not
depend on which best-effort deletes fail: delete errors are never
thrown. -/
theorem starterOffChainPhase_delete_blind (db : DB) (env : MintEnv)
    (addr : String) (rt : MintTankResult) (r1 r2 : MintFishResult)
    (fdel tdel : Nat → Bool) :
    (starterOffChainPhase db
        { env with deleteFishFails := fdel, deleteTankFails := tdel }
        addr rt r1 r2).result =
      (starterOffChainPhase db env addr rt r1 r2).result ∧
    (starterOffChainPhase db
        { env with deleteFishFails := fdel, deleteTankFails := tdel }
        addr rt r1 r2).deletes =
      (starterOffChainPhase db env addr rt r1 r2).deletes := by
  unfold starterOffChainPhase
  cases h1 : saveTankStep db env.insertTank addr rt with
  | error e1 =>
    simp [h1, starterRollbackFail, rollbackSupabaseInserts_trace]
  | ok s1 =>
    obtain ⟨db1, ts⟩ := s1
    cases h2 : saveFishStep db1 env.insertFish1 addr r1 rt.tank_id with
    | error e2 =>
      simp [h1, h2, starterRollbackFail, rollbackSupabaseInserts_trace]
    | ok s2 =>
      obtain ⟨db2, f1s⟩ := s2
      cases h3 : saveFishStep db2 env.insertFish2 addr r2 rt.tank_id with
      | error e3 =>
        simp [h1, h2, h3, starterRollbackFail, rollbackSupabaseInserts_trace]
      | ok s3 =>
        obtain ⟨db3, f2s⟩ := s3
        cases h4 : updateFishCountStep db3 env.updatePlayer addr with
        | error e4 =>
          simp [h1, h2, h3, h4, starterRollbackFail,
            rollbackSupabaseInserts_trace]
        | ok db4 =>
          simp [h1, h2, h3, h4]



/-- Appending rows that a filter rejects while the base list passes it
leaves exactly the base list. -/
theorem filter_append_eq_base {α : Type} (l extra : List α) (p : α → Bool)
    (hl : ∀ x ∈ l, p x = true) (hextra : ∀ x ∈ extra, p x = false) :
    (l ++ extra).filter p = l := by
  rw [List.filter_append, List.filter_eq_self.mpr hl]
  have : extra.filter p = [] := by
    induction extra with
    | nil => rfl
    | cons y ys ih =>
      simp only [List.filter_cons, hextra y (by simp)]
      exact ih (fun x hx => hextra x (by simp [hx]))
  rw [this, List.append_nil]

/-- Pair form of the two fold lemmas. -/
theorem rollbackFish_foldl_pair (env : MintEnv) (fids : List Nat)
    (db : DB) (acc : List DelOp)
    (hdf : ∀ i ∈ fids, env.deleteFishFails i = false) :
    fids.foldl (rollbackFishStep env) (db, acc) =
      ({ db with fish := db.fish.filter (fun f => decide (f.id ∉ fids)) },
        acc ++ fids.map DelOp.delFish) := by
  rw [Prod.ext_iff]
  exact ⟨rollbackFish_foldl_db env fids db acc hdf,
    rollbackFish_foldl_trace env fids db acc⟩

/-- When no delete fails, the rollback helper removes exactly the listed
fish rows and the tank row. -/
theorem rollbackSupabaseInserts_db (db : DB) (env : MintEnv) (tid : Nat)
    (fids : List Nat)
    (hdf : ∀ i ∈ fids, env.deleteFishFails i = false)
    (hdt : env.deleteTankFails tid = false) :
    (rollbackSupabaseInserts db env (some tid) fids).1 =
      { db with fish := db.fish.filter (fun f => decide (f.id ∉ fids)),
                tanks := db.tanks.filter (fun t => t.id ≠ tid) } := by
  show (rollbackTankStep env (fids.foldl (rollbackFishStep env) (db, [])) tid).1 = _
  rw [rollbackFish_foldl_pair env fids db [] hdf]
  unfold rollbackTankStep
  rw [if_neg (by rw [hdt]; simp)]

/-- C1: mintStarterPack follows the asymmetric two-ledger failure
discipline.  With the preconditions passing: any failing on-chain mint
throws OnChainError with the store untouched, no row inserted, and no
delete attempted; once all three mints succeed, every failure of the
Supabase phase surfaces as the single rollback error naming the three
on-chain transaction hashes; the result and the delete attempts are blind
to failures of the best-effort deletes (deletion errors are logged, never
thrown); and at each failure point the rows saved so far are delete-
attempted in fish-then-tank order, restoring the store exactly when the
deletes succeed and the minted ids are fresh. -/
theorem mintStarterPack_two_ledger_discipline (db : DB) (env : MintEnv)
    (address : String) (player : PlayerRow)
    (haddr : strTrim address ≠ "")
    (hpq : env.playerQueryFails = false)
    (htq : env.tanksQueryFails = false)
    (hfq : env.fishCountQueryFails = false)
    (hplayer : selectSingle (db.players.filter
      (fun p => p.address = strTrim address)) = some player)
    (hcount : player.fish_count = 0)
    (htanks : db.tanks.filter (fun t => t.owner = strTrim address) = [])
    (hfish : db.fish.filter (fun f => f.owner = strTrim address) = []) :
    -- on-chain phase: clean aborts, store untouched
    (env.mintTank = none →
      mintStarterPack db env address = ⟨.error .onChainMintTank, db, []⟩ ∧
      Err.kind .onChainMintTank = .onChainE) ∧
    (∀ rt, env.mintTank = some rt → env.mintFish1 = none →
      mintStarterPack db env address =
        ⟨.error (.onChainMintFish1 rt.tx_hash), db, []⟩ ∧
      Err.kind (.onChainMintFish1 rt.tx_hash) = .onChainE) ∧
    (∀ rt r1, env.mintTank = some rt → env.mintFish1 = some r1 →
      env.mintFish2 = none →
      mintStarterPack db env address =
        ⟨.error (.onChainMintFish2 r1.tx_hash), db, []⟩ ∧
      Err.kind (.onChainMintFish2 r1.tx_hash) = .onChainE) ∧
    -- off-chain phase discipline
    (∀ rt r1 r2, env.mintTank = some rt → env.mintFish1 = some r1 →
      env.mintFish2 = some r2 →
      -- every off-chain failure names the three transaction hashes
      (∀ e, (mintStarterPack db env address).result = .error e →
        ∃ inner, e = .starterSaveFailed inner rt.tx_hash r1.tx_hash r2.tx_hash) ∧
      -- delete failures never change the thrown result or the attempts
      (∀ fdel tdel,
        (mintStarterPack db
          { env with deleteFishFails := fdel, deleteTankFails := tdel }
          address).result = (mintStarterPack db env address).result ∧
        (mintStarterPack db
          { env with deleteFishFails := fdel, deleteTankFails := tdel }
          address).deletes = (mintStarterPack db env address).deletes) ∧
      -- rollback at each failure point: saved rows, fish before tank
      (env.insertTank = .errOther →
        (mintStarterPack db env address).deletes = [] ∧
        (mintStarterPack db env address).db = db) ∧
      (env.insertTank = .ok → env.insertFish1 = .errOther →
        (mintStarterPack db env address).deletes = [DelOp.delTank rt.tank_id] ∧
        (env.deleteTankFails rt.tank_id = false →
         (∀ x ∈ db.tanks, x.id ≠ rt.tank_id) →
         (mintStarterPack db env address).db = db)) ∧
      (env.insertTank = .ok → env.insertFish1 = .ok →
       env.insertFish2 = .errOther →
        (mintStarterPack db env address).deletes =
          [DelOp.delFish r1.fish_id, DelOp.delTank rt.tank_id] ∧
        (env.deleteFishFails r1.fish_id = false →
         env.deleteTankFails rt.tank_id = false →
         (∀ x ∈ db.tanks, x.id ≠ rt.tank_id) →
         (∀ x ∈ db.fish, x.id ≠ r1.fish_id) →
         (mintStarterPack db env address).db = db)) ∧
      (env.insertTank = .ok → env.insertFish1 = .ok → env.insertFish2 = .ok →
       env.updatePlayer = .errU →
        (mintStarterPack db env address).deletes =
          [DelOp.delFish r1.fish_id, DelOp.delFish r2.fish_id,
           DelOp.delTank rt.tank_id] ∧
        (env.deleteFishFails r1.fish_id = false →
         env.deleteFishFails r2.fish_id = false →
         env.deleteTankFails rt.tank_id = false →
         (∀ x ∈ db.tanks, x.id ≠ rt.tank_id) →
         (∀ x ∈ db.fish, x.id ≠ r1.fish_id) →
         (∀ x ∈ db.fish, x.id ≠ r2.fish_id) →
         (mintStarterPack db env address).db = db))) := by
  have htake : (db.tanks.filter (fun t => t.owner = strTrim address)).take 1 = [] := by
    rw [take_one_eq_nil_iff]
    exact htanks
  refine ⟨?_, ?_, ?_, ?_⟩
  · intro ht
    exact ⟨by simp [mintStarterPack, haddr, hpq, hplayer, htq, htake, hfq,
      hfish, hcount, ht], rfl⟩
  · intro rt ht h1
    exact ⟨by simp [mintStarterPack, haddr, hpq, hplayer, htq, htake, hfq,
      hfish, hcount, ht, h1], rfl⟩
  · intro rt r1 ht h1 h2
    exact ⟨by simp [mintStarterPack, haddr, hpq, hplayer, htq, htake, hfq,
      hfish, hcount, ht, h1, h2], rfl⟩
  · intro rt r1 r2 ht h1 h2
    have hred := mintStarterPack_offchain_reduction db env address player
      rt r1 r2 haddr hpq htq hfq hplayer hcount htanks hfish ht h1 h2
    refine ⟨?_, ?_, ?_, ?_, ?_, ?_⟩
    · intro e he
      rw [hred] at he
      exact starterOffChainPhase_error_shape db env (strTrim address)
        rt r1 r2 e he
    · intro fdel tdel
      have hred2 := mintStarterPack_offchain_reduction db
        { env with deleteFishFails := fdel, deleteTankFails := tdel }
        address player rt r1 r2 haddr hpq htq hfq hplayer hcount htanks
        hfish ht h1 h2
      rw [hred, hred2]
      exact starterOffChainPhase_delete_blind db env (strTrim address)
        rt r1 r2 fdel tdel
    · intro hit
      rw [hred]
      simp only [starterOffChainPhase, hit, saveTankStep]
      constructor
      · simp [starterRollbackFail, rollbackSupabaseInserts_trace]
      · simp [starterRollbackFail, rollbackSupabaseInserts]
    · intro hit hif1
      rw [hred]
      simp only [starterOffChainPhase, hit, hif1, saveTankStep, saveFishStep]
      constructor
      · simp [starterRollbackFail, rollbackSupabaseInserts_trace]
      · intro hdt hfresh
        show (rollbackSupabaseInserts
          { db with tanks := db.tanks ++ [(⟨rt.tank_id, strTrim address, "Starter Tank"⟩ : TankRow)] }
          env (some rt.tank_id) []).1 = db
        rw [rollbackSupabaseInserts_db _ env rt.tank_id [] (by simp) hdt]
        have htankEq : db.tanks.filter (fun t => !decide (t.id = rt.tank_id)) =
            db.tanks :=
          List.filter_eq_self.mpr (fun x hx => by simpa using hfresh x hx)
        simp [htankEq]
    · intro hit hif1 hif2
      rw [hred]
      simp only [starterOffChainPhase, hit, hif1, hif2, saveTankStep,
        saveFishStep]
      constructor
      · simp [starterRollbackFail, rollbackSupabaseInserts_trace]
      · intro hdf1 hdt hfresht hfreshf
        show (rollbackSupabaseInserts
          { db with
              tanks := db.tanks ++ [(⟨rt.tank_id, strTrim address, "Starter Tank"⟩ : TankRow)],
              fish := db.fish ++ [(⟨r1.fish_id, strTrim address, STARTER_PACK_FISH_SPECIES,
              STARTER_PACK_FISH_IMAGE_URL, some rt.tank_id, none, none⟩ : FishRow)] }
          env (some rt.tank_id) [r1.fish_id]).1 = db
        rw [rollbackSupabaseInserts_db _ env rt.tank_id [r1.fish_id]
          (by simpa using hdf1) hdt]
        have hfishEq : db.fish.filter (fun f => !decide (f.id = r1.fish_id)) =
            db.fish :=
          List.filter_eq_self.mpr (fun x hx => by simpa using hfreshf x hx)
        have htankEq : db.tanks.filter (fun t => !decide (t.id = rt.tank_id)) =
            db.tanks :=
          List.filter_eq_self.mpr (fun x hx => by simpa using hfresht x hx)
        simp [hfishEq, htankEq]
    · intro hit hif1 hif2 hupd
      rw [hred]
      simp only [starterOffChainPhase, hit, hif1, hif2, hupd, saveTankStep,
        saveFishStep, updateFishCountStep]
      constructor
      · simp [starterRollbackFail, rollbackSupabaseInserts_trace]
      · intro hdf1 hdf2 hdt hfresht hfreshf1 hfreshf2
        show (rollbackSupabaseInserts
          { db with
              tanks := db.tanks ++ [(⟨rt.tank_id, strTrim address, "Starter Tank"⟩ : TankRow)],
              fish := db.fish ++ [(⟨r1.fish_id, strTrim address, STARTER_PACK_FISH_SPECIES,
              STARTER_PACK_FISH_IMAGE_URL, some rt.tank_id, none, none⟩ : FishRow)] ++
                [(⟨r2.fish_id, strTrim address, STARTER_PACK_FISH_SPECIES,
              STARTER_PACK_FISH_IMAGE_URL, some rt.tank_id, none, none⟩ : FishRow)] }
          env (some rt.tank_id) [r1.fish_id, r2.fish_id]).1 = db
        rw [rollbackSupabaseInserts_db _ env rt.tank_id [r1.fish_id, r2.fish_id]
          (by
            intro i hi
            simp only [List.mem_cons, List.mem_singleton,
              List.not_mem_nil, or_false] at hi
            rcases hi with h | h
            · rw [h]; exact hdf1
            · rw [h]; exact hdf2) hdt]
        have hfishEq : db.fish.filter
            (fun f => !decide (f.id = r1.fish_id) && !decide (f.id = r2.fish_id)) =
            db.fish :=
          List.filter_eq_self.mpr (fun x hx => by
            have hx1 := hfreshf1 x hx
            have hx2 := hfreshf2 x hx
            simp [hx1, hx2])
        have htankEq : db.tanks.filter (fun t => !decide (t.id = rt.tank_id)) =
            db.tanks :=
          List.filter_eq_self.mpr (fun x hx => by simpa using hfresht x hx)
        simp [hfishEq, htankEq]


/-- C1 witness: with a clean registered player and all mints succeeding,
a failing fish_count update rolls back both fish and the tank (fish
first) and restores the store. -/
theorem mintStarterPack_two_ledger_discipline_witness :
    (mintStarterPack dbClean { mintEnvOk with updatePlayer := .errU } addrW).deletes =
      [DelOp.delFish 1, DelOp.delFish 2, DelOp.delTank 1] ∧
    (mintStarterPack dbClean { mintEnvOk with updatePlayer := .errU } addrW).db =
      dbClean := by
  have h := mintStarterPack_two_ledger_discipline dbClean
    { mintEnvOk with updatePlayer := .errU } addrW playerW
    (by decide) rfl rfl rfl (by decide) rfl rfl rfl
  have h4 := (h.2.2.2 ⟨"t1", 1⟩ ⟨"f1", 1⟩ ⟨"f2", 2⟩ rfl rfl rfl).2.2.2.2.2
    rfl rfl rfl rfl
  exact ⟨h4.1, h4.2 rfl rfl rfl (by simp [dbClean]) (by simp [dbClean])
    (by simp [dbClean])⟩



/-- The save steps of the off-chain phase do not touch the players
table. -/
theorem saveTankStep_players (db : DB) (res : InsRes) (addr : String)
    (rt : MintTankResult) (db1 : DB) (b : Bool)
    (h : saveTankStep db res addr rt = .ok (db1, b)) :
    db1.players = db.players := by
  cases res with
  | ok =>
    simp only [saveTankStep, Except.ok.injEq, Prod.mk.injEq] at h
    rw [← h.1]
  | uniq =>
    simp only [saveTankStep] at h
    cases hS : selectSingle (db.tanks.filter (fun t => t.id = rt.tank_id)) with
    | none => rw [hS] at h; simp at h
    | some existing =>
      simp only [hS] at h
      split_ifs at h
      simp only [Except.ok.injEq, Prod.mk.injEq] at h
      rw [← h.1]
  | errOther => simp [saveTankStep] at h
  | noData => simp [saveTankStep] at h

theorem saveFishStep_players (db : DB) (res : InsRes) (addr : String)
    (rf : MintFishResult) (tid : Nat) (db1 : DB) (b : Bool)
    (h : saveFishStep db res addr rf tid = .ok (db1, b)) :
    db1.players = db.players := by
  cases res with
  | ok =>
    simp only [saveFishStep, Except.ok.injEq, Prod.mk.injEq] at h
    rw [← h.1]
  | uniq =>
    simp only [saveFishStep] at h
    cases hS : selectSingle (db.fish.filter (fun f => f.id = rf.fish_id)) with
    | none => rw [hS] at h; simp at h
    | some existing =>
      simp only [hS] at h
      split_ifs at h
      simp only [Except.ok.injEq, Prod.mk.injEq] at h
      rw [← h.1]
  | errOther => simp [saveFishStep] at h
  | noData => simp [saveFishStep] at h

/-- The fish_count update maps the player rows with the patch. -/
theorem updateFishCountStep_players (db : DB) (res : UpdRes) (addr : String)
    (db1 : DB) (h : updateFishCountStep db res addr = .ok db1) :
    db1.players = db.players.map (setFishCount2 addr) := by
  cases res with
  | errU => simp [updateFishCountStep] at h
  | noDataU => simp [updateFishCountStep] at h
  | ok =>
    simp only [updateFishCountStep] at h
    split_ifs at h
    simp only [Except.ok.injEq] at h
    rw [← h]

/-- The rollback helper does not touch the players table. -/
theorem rollbackFish_foldl_players (env : MintEnv) (fids : List Nat)
    (db : DB) (acc : List DelOp) :
    ((fids.foldl (rollbackFishStep env) (db, acc)).1).players = db.players := by
  induction fids generalizing db acc with
  | nil => rfl
  | cons x xs ih =>
    rw [List.foldl_cons]
    unfold rollbackFishStep
    split_ifs <;> exact ih _ _

theorem rollbackSupabaseInserts_players (db : DB) (env : MintEnv)
    (tid : Option Nat) (fids : List Nat) :
    ((rollbackSupabaseInserts db env tid fids).1).players = db.players := by
  cases tid with
  | none => exact rollbackFish_foldl_players env fids db []
  | some t =>
    show ((rollbackTankStep env (fids.foldl (rollbackFishStep env) (db, [])) t).1).players = _
    unfold rollbackTankStep
    split_ifs <;> exact rollbackFish_foldl_players env fids db []

theorem starterRollbackFail_players (db : DB) (env : MintEnv)
    (rt : MintTankResult) (r1 r2 : MintFishResult) (ts f1 f2 : Bool)
    (inner : Err) :
    ((starterRollbackFail db env rt r1 r2 ts f1 f2 inner).db).players =
      db.players := by
  unfold starterRollbackFail
  exact rollbackSupabaseInserts_players db env _ _

/-- How the off-chain phase can change the players table: on success the
fish_count patch is applied, on failure the table is untouched. -/
theorem starterOffChainPhase_players (db : DB) (env : MintEnv)
    (addr : String) (rt : MintTankResult) (r1 r2 : MintFishResult) :
    (∀ e, (starterOffChainPhase db env addr rt r1 r2).result = .error e →
      ((starterOffChainPhase db env addr rt r1 r2).db).players = db.players) ∧
    (∀ sp, (starterOffChainPhase db env addr rt r1 r2).result = .ok sp →
      ((starterOffChainPhase db env addr rt r1 r2).db).players =
        db.players.map (setFishCount2 addr)) := by
  unfold starterOffChainPhase
  cases h1 : saveTankStep db env.insertTank addr rt with
  | error e1 =>
    simp [starterRollbackFail_players, starterRollbackFail_result]
  | ok s1 =>
    obtain ⟨db1, ts⟩ := s1
    have hp1 := saveTankStep_players db env.insertTank addr rt db1 ts h1
    cases h2 : saveFishStep db1 env.insertFish1 addr r1 rt.tank_id with
    | error e2 =>
      simp [h2, starterRollbackFail_players, starterRollbackFail_result, hp1]
    | ok s2 =>
      obtain ⟨db2, f1s⟩ := s2
      have hp2 := saveFishStep_players db1 env.insertFish1 addr r1 rt.tank_id db2 f1s h2
      cases h3 : saveFishStep db2 env.insertFish2 addr r2 rt.tank_id with
      | error e3 =>
        simp [h2, h3, starterRollbackFail_players, starterRollbackFail_result,
          hp1, hp2]
      | ok s3 =>
        obtain ⟨db3, f2s⟩ := s3
        have hp3 := saveFishStep_players db2 env.insertFish2 addr r2 rt.tank_id db3 f2s h3
        cases h4 : updateFishCountStep db3 env.updatePlayer addr with
        | error e4 =>
          simp [h2, h3, h4, starterRollbackFail_players,
            starterRollbackFail_result, hp1, hp2, hp3]
        | ok db4 =>
          have hp4 := updateFishCountStep_players db3 env.updatePlayer addr db4 h4
          simp [h2, h3, h4, hp4, hp3, hp2, hp1]

/-- How one mintStarterPack call can change the players table. -/
theorem mintStarterPack_players (db : DB) (env : MintEnv) (address : String) :
    (∀ e, (mintStarterPack db env address).result = .error e →
      ((mintStarterPack db env address).db).players = db.players) ∧
    (∀ sp, (mintStarterPack db env address).result = .ok sp →
      ((mintStarterPack db env address).db).players =
        db.players.map (setFishCount2 (strTrim address))) := by
  unfold mintStarterPack
  repeat' split
  all_goals
    first
      | exact ⟨fun e he => rfl, fun sp hsp => by simp at hsp⟩
      | exact starterOffChainPhase_players _ _ _ _ _ _


/-- selectSingle returns a row exactly for one-element lists. -/
theorem selectSingle_eq_some_iff {α : Type} (l : List α) (x : α) :
    selectSingle l = some x ↔ l = [x] := by
  cases l with
  | nil => simp [selectSingle]
  | cons y ys => cases ys <;> simp [selectSingle]

/-- The address filter counts occurrences in the address list. -/
theorem filter_addr_length_eq_count (l : List PlayerRow) (a : String) :
    (l.filter (fun r => r.address = a)).length =
      (l.map (fun r => r.address)).count a := by
  induction l with
  | nil => rfl
  | cons x xs ih =>
    simp only [List.filter_cons, List.map_cons, List.count_cons]
    by_cases h : x.address = a <;> simp [h, ih, beq_iff_eq]

/-- With duplicate-free addresses, an empty single-row lookup means the
filter is empty. -/
theorem filter_eq_nil_of_selectSingle_none (l : List PlayerRow) (a : String)
    (hnd : (l.map (fun r => r.address)).Nodup)
    (h : selectSingle (l.filter (fun r => r.address = a)) = none) :
    l.filter (fun r => r.address = a) = [] := by
  have hc := filter_addr_length_eq_count l a
  have hle := List.nodup_iff_count_le_one.mp hnd a
  cases hF : l.filter (fun r => r.address = a) with
  | nil => rfl
  | cons x xs =>
    cases xs with
    | nil => rw [hF] at h; simp [selectSingle] at h
    | cons y ys =>
      rw [hF] at hc
      simp only [List.length_cons] at hc
      omega

/-- The fish_count patch does not change the address. -/
theorem setFishCount2_address (a : String) (p : PlayerRow) :
    (setFishCount2 a p).address = p.address := by
  unfold setFishCount2
  split_ifs <;> rfl

/-- The fish_count patch preserves the address list. -/
theorem map_setFishCount2_addresses (l : List PlayerRow) (a : String) :
    ((l.map (setFishCount2 a)).map (fun r => r.address)) =
      l.map (fun r => r.address) := by
  rw [List.map_map]
  exact List.map_congr_left (fun x _ => setFishCount2_address a x)

/-- registerPlayer performs the on-chain registration at most once. -/
theorem registerPlayer_regCalls_le_one (db : DB) (env : RegEnv)
    (address : String) :
    (registerPlayer db env address).regCalls ≤ 1 := by
  unfold registerPlayer
  repeat'
    first
      | split
      | simp


/-- C6: registerPlayer is idempotent.  After any successful call the
returned row is the stored row for the address; a second call returns
that same row, leaves the store unchanged and performs no on-chain
registration; the on-chain registration runs at most once per call (only
on the creation path); and a lost insert race returns the row the winner
created instead of erroring. -/
theorem registerPlayer_idempotent (db : DB) (env1 env2 : RegEnv)
    (address : String) (p : PlayerRow)
    (haddr : strTrim address = address) (hne : address ≠ "")
    (hnodup : (db.players.map (fun q => q.address)).Nodup)
    (hpq1 : env1.playerQueryFails = false)
    (hrf : env1.refetchAfterMintFails = false)
    (h1 : (registerPlayer db env1 address).result = .ok p)
    (hpq2 : env2.playerQueryFails = false) :
    selectSingle (((registerPlayer db env1 address).db).players.filter
      (fun r => r.address = address)) = some p ∧
    registerPlayer ((registerPlayer db env1 address).db) env2 address =
      ⟨.ok p, (registerPlayer db env1 address).db, 0⟩ ∧
    (registerPlayer db env1 address).regCalls ≤ 1 ∧
    (registerPlayer ((registerPlayer db env1 address).db) env2 address).regCalls = 0 ∧
    (∀ w, env1.insertPlayer = .raceLost w → w.address = address →
      selectSingle (db.players.filter (fun r => r.address = address)) = none →
      env1.raceRefetchFails = false →
      registerPlayer db env1 address =
        ⟨.ok w, { db with players := db.players ++ [w] }, 0⟩) := by
  have hne2 : strTrim address ≠ "" := by rw [haddr]; exact hne
  have hkey : selectSingle (((registerPlayer db env1 address).db).players.filter
      (fun r => r.address = address)) = some p := by
    cases hP : selectSingle (db.players.filter (fun q => q.address = address)) with
    | some existing =>
      have hrun : registerPlayer db env1 address = ⟨.ok existing, db, 0⟩ := by
        simp [registerPlayer, hne2, hpq1, hP]
      rw [hrun] at h1
      simp only [Except.ok.injEq] at h1
      rw [hrun, ← h1]
      exact hP
    | none =>
      have hdbnil := filter_eq_nil_of_selectSingle_none db.players address
        hnodup hP
      cases hIns : env1.insertPlayer with
      | errOther =>
        have hrun : registerPlayer db env1 address = ⟨.error .dbError, db, 0⟩ := by
          simp [registerPlayer, hne2, hpq1, hP, hIns]
        rw [hrun] at h1
        simp at h1
      | raceLost w =>
        cases hrr : env1.raceRefetchFails with
        | true =>
          have hrun : registerPlayer db env1 address =
              ⟨.error .dbError, { db with players := db.players ++ [w] }, 0⟩ := by
            simp [registerPlayer, hne2, hpq1, hP, hIns, hrr]
          rw [hrun] at h1
          simp at h1
        | false =>
          cases hS : selectSingle ((db.players ++ [w]).filter
              (fun q => q.address = address)) with
          | none =>
            have hrun : registerPlayer db env1 address =
                ⟨.error .dbError, { db with players := db.players ++ [w] }, 0⟩ := by
              simp only [registerPlayer, hne2, hpq1, hP, hIns, hrr]
              simp only [List.filter_append] at hS ⊢
              rw [hS]
              simp
            rw [hrun] at h1
            simp at h1
          | some row =>
            have hrun : registerPlayer db env1 address =
                ⟨.ok row, { db with players := db.players ++ [w] }, 0⟩ := by
              simp only [registerPlayer, hne2, hpq1, hP, hIns, hrr]
              simp only [List.filter_append] at hS ⊢
              rw [hS]
              simp
            rw [hrun] at h1
            simp only [Except.ok.injEq] at h1
            rw [hrun, ← h1]
            exact hS
      | ok =>
        cases hoc : env1.registerOnChainOk with
        | false =>
          have hrun : registerPlayer db env1 address =
              ⟨.error .onChainRegister,
                { db with players := db.players ++ [newPlayerRow (strTrim address)] }, 1⟩ := by
            simp [registerPlayer, hne2, hpq1, hP, hIns, hoc]
          rw [hrun] at h1
          simp at h1
        | true =>
          have hfilter1 : ((db.players ++ [newPlayerRow (strTrim address)]).filter
              (fun q => q.address = address)) = [newPlayerRow (strTrim address)] := by
            rw [List.filter_append, hdbnil]
            simp [newPlayerRow, haddr]
          cases hm : (mintStarterPack
              { db with players := db.players ++ [newPlayerRow (strTrim address)] }
              env1.mintEnv address).result with
          | error e =>
            have hply := (mintStarterPack_players
              { db with players := db.players ++ [newPlayerRow (strTrim address)] }
              env1.mintEnv address).1 e hm
            have hrun : registerPlayer db env1 address =
                ⟨.ok (newPlayerRow (strTrim address)),
                  (mintStarterPack
                    { db with players := db.players ++ [newPlayerRow (strTrim address)] }
                    env1.mintEnv address).db, 1⟩ := by
              simp only [registerPlayer, hne2, hpq1, hP, hIns, hoc]
              simp [hm]
            rw [hrun] at h1
            simp only [Except.ok.injEq] at h1
            rw [hrun, ← h1]
            simp only [hply]
            show selectSingle ((db.players ++ [newPlayerRow (strTrim address)]).filter
              (fun r => r.address = address)) = _
            rw [hfilter1]
            rfl
          | ok sp =>
            have hply := (mintStarterPack_players
              { db with players := db.players ++ [newPlayerRow (strTrim address)] }
              env1.mintEnv address).2 sp hm
            cases hS2 : selectSingle (((mintStarterPack
                { db with players := db.players ++ [newPlayerRow (strTrim address)] }
                env1.mintEnv address).db).players.filter
                (fun r => r.address = address)) with
            | none =>
              exfalso
              have hcount : (((mintStarterPack
                  { db with players := db.players ++ [newPlayerRow (strTrim address)] }
                  env1.mintEnv address).db).players.filter
                  (fun r => r.address = address)).length = 1 := by
                rw [filter_addr_length_eq_count, hply,
                  map_setFishCount2_addresses,
                  ← filter_addr_length_eq_count]
                show ((db.players ++ [newPlayerRow (strTrim address)]).filter
                  (fun r => r.address = address)).length = 1
                rw [hfilter1]
                rfl
              obtain ⟨x, hx⟩ := List.length_eq_one.mp hcount
              rw [hx] at hS2
              simp [selectSingle] at hS2
            | some updated =>
              have hrun : registerPlayer db env1 address =
                  ⟨.ok updated,
                    (mintStarterPack
                      { db with players := db.players ++ [newPlayerRow (strTrim address)] }
                      env1.mintEnv address).db, 1⟩ := by
                simp only [registerPlayer, hne2, hpq1, hP, hIns, hoc]
                simp [hm, hrf, hS2]
              rw [hrun] at h1
              simp only [Except.ok.injEq] at h1
              rw [hrun, ← h1]
              exact hS2
  have hsecond : ∀ d : DB,
      selectSingle (d.players.filter (fun r => r.address = address)) = some p →
      registerPlayer d env2 address = ⟨.ok p, d, 0⟩ := by
    intro d hk
    simp [registerPlayer, hne2, hpq2, hk]
  refine ⟨hkey, hsecond _ hkey, registerPlayer_regCalls_le_one db env1 address, ?_, ?_⟩
  · rw [hsecond _ hkey]
  · intro w hw hwaddr hnone hrrf
    have hdbnil := filter_eq_nil_of_selectSingle_none db.players address
      hnodup hnone
    have hfilterw : ((db.players ++ [w]).filter
        (fun q => q.address = address)) = [w] := by
      rw [List.filter_append, hdbnil]
      simp [hwaddr]
    simp only [registerPlayer, hne2, hpq1, hnone, hw, hrrf]
    simp [hfilterw, selectSingle]

/-- C6 witness: registering a fresh address and then registering it again
returns the same stored row twice, with a single on-chain registration. -/
theorem registerPlayer_idempotent_witness :
    selectSingle (((registerPlayer dbEmpty regEnvOk addrW).db).players.filter
      (fun r => r.address = addrW)) =
      some ⟨addrW, 0, 2, 0, 0, 0, none⟩ ∧
    registerPlayer ((registerPlayer dbEmpty regEnvOk addrW).db) regEnvOk addrW =
      ⟨.ok ⟨addrW, 0, 2, 0, 0, 0, none⟩,
        (registerPlayer dbEmpty regEnvOk addrW).db, 0⟩ := by
  have h := registerPlayer_idempotent dbEmpty regEnvOk regEnvOk addrW
    ⟨addrW, 0, 2, 0, 0, 0, none⟩ (by decide) (by decide) (by decide) rfl rfl
    (by decide) rfl
  exact ⟨h.1, h.2.1⟩


/-- C7 counterexample: "0xzz" does not match the Starknet hex address
pattern, yet registerPlayer accepts it and creates a player row for it —
registerPlayer performs no hex-pattern validation. -/
theorem registerPlayer_accepts_malformed_address :
    isStarknetAddress "0xzz" = false ∧
    (registerPlayer dbEmpty regEnvOk "0xzz").result =
      .ok ⟨"0xzz", 0, 2, 0, 0, 0, none⟩ := by
  constructor
  · decide
  · decide

/-- C7 (amended): registerPlayer validates only that the trimmed address is
non-empty — an all-whitespace or empty address is rejected up front with
the ValidationError `addressRequired` and the store untouched, but no call
ever fails with the hex-pattern ValidationError `invalidAddressFormat`:
the fixed hex address pattern is not checked by registerPlayer. -/
theorem registerPlayer_address_validation (db : DB) (env : RegEnv)
    (address : String) :
    (strTrim address = "" →
      registerPlayer db env address = ⟨.error .addressRequired, db, 0⟩) ∧
    (registerPlayer db env address).result ≠ .error .invalidAddressFormat := by
  constructor
  · intro h
    simp [registerPlayer, h]
  · unfold registerPlayer
    repeat'
      first
        | split
        | simp

/-- C7 witness: the empty address is rejected with addressRequired, and a
concrete malformed address is not rejected with invalidAddressFormat. -/
theorem registerPlayer_address_validation_witness :
    registerPlayer dbEmpty regEnvOk "" = ⟨.error .addressRequired, dbEmpty, 0⟩ ∧
    (registerPlayer dbEmpty regEnvOk "0xzz").result ≠
      .error .invalidAddressFormat := by
  have h := registerPlayer_address_validation dbEmpty regEnvOk ""
  have h2 := registerPlayer_address_validation dbEmpty regEnvOk "0xzz"
  exact ⟨h.1 (by decide), h2.2⟩


/-- When the per-fish grant loop reports success, it granted the same
amount once per requested fish, in order. -/
theorem grantFishLoop_ok_grants (env : FeedEnv) (a : ℚ) (ids : List Int)
    (h : (grantFishLoop env a ids).2.2 = true) :
    (grantFishLoop env a ids).1 = ids.map (fun i => (i, a)) := by
  induction ids with
  | nil => rfl
  | cons fid rest ih =>
    cases hg : env.gainFishXp fid with
    | none => simp [grantFishLoop, hg] at h
    | some tx =>
      simp only [grantFishLoop, hg] at h ⊢
      simp [ih h]

/-- A list with two distinct members is not a singleton. -/
theorem selectSingle_eq_none_of_two {α : Type} (l : List α) (x y : α)
    (hx : x ∈ l) (hy : y ∈ l) (hxy : x ≠ y) : selectSingle l = none := by
  cases hs : selectSingle l with
  | none => rfl
  | some z =>
    rw [selectSingle_eq_some_iff] at hs
    subst hs
    simp at hx hy
    exact absurd (hx.trans hy.symm) hxy


/-- A validation error propagates to the feedFishBatch outcome with the
store untouched and no grant issued. -/
theorem feedFishBatch_validate_error (db : DB) (env : FeedEnv)
    (fishIds : List Int) (owner : String) (e : Err)
    (h : feedValidate db env fishIds owner = .error e) :
    feedFishBatch db env fishIds owner = ⟨.error e, db, [], none⟩ := by
  simp [feedFishBatch, h]

/-- A successful feedFishBatch outcome is the grant phase run on the
tank-wide XP value. -/
theorem feedFishBatch_ok_shape (db : DB) (env : FeedEnv)
    (fishIds : List Int) (owner : String) (tx : String)
    (h : (feedFishBatch db env fishIds owner).result = .ok tx) :
    feedFishBatch db env fishIds owner =
      feedGrantPhase db env fishIds owner
        (calculateFishXp getFeedBaseXp (feedMultiplier db env owner)) := by
  cases hv : feedValidate db env fishIds owner with
  | error e => simp [feedFishBatch, hv] at h
  | ok l =>
    cases htq : env.tankQueryOtherFails with
    | true => simp [feedFishBatch, hv, htq] at h
    | false => simp [feedFishBatch, hv, htq]

/-- When the owner tank single-row query returns a row, the feed
multiplier is that tank's decoration multiplier (in percent), degraded to
0 if computing it fails. -/
theorem feedMultiplier_some (db : DB) (env : FeedEnv) (owner : String)
    (t : TankRow)
    (h : selectSingle (db.tanks.filter (fun t2 => t2.owner = strTrim owner)) =
      some t) :
    feedMultiplier db env owner =
      match getActiveDecorationsMultiplier db env.multiplierEnv (t.id : Int) with
      | .error _ => 0
      | .ok d => d * 100 := by
  simp [feedMultiplier, h]

/-- When the owner tank single-row query reports no row, the feed
multiplier degrades to 0. -/
theorem feedMultiplier_none (db : DB) (env : FeedEnv) (owner : String)
    (h : selectSingle (db.tanks.filter (fun t2 => t2.owner = strTrim owner)) =
      none) :
    feedMultiplier db env owner = 0 := by
  simp [feedMultiplier, h]

/-- A successful grant phase granted the same amount to every requested
fish and the per-fish amount times the batch size to the player. -/
theorem feedGrantPhase_success (db : DB) (env : FeedEnv)
    (fishIds : List Int) (owner : String) (a : ℚ) (tx : String)
    (h : (feedGrantPhase db env fishIds owner a).result = .ok tx) :
    (feedGrantPhase db env fishIds owner a).fishGrants =
      fishIds.map (fun i => (i, a)) ∧
    (feedGrantPhase db env fishIds owner a).playerGrant =
      some (tx, a * (fishIds.length : ℚ)) := by
  cases hflag : (grantFishLoop env a fishIds).2.2 with
  | false => simp [feedGrantPhase, hflag] at h
  | true =>
    cases hp : env.gainPlayerXp with
    | none => simp [feedGrantPhase, hflag, hp] at h
    | some playerTx =>
      cases hpf : env.playerFetchFails with
      | true => simp [feedGrantPhase, hflag, hp, hpf] at h
      | false =>
        cases hsel : selectSingle (db.players.filter
            (fun p => p.address = strTrim owner)) with
        | none => simp [feedGrantPhase, hflag, hp, hpf, hsel] at h
        | some playerData =>
          cases hpu : env.playerUpdateFails with
          | true => simp [feedGrantPhase, hflag, hp, hpf, hsel, hpu] at h
          | false =>
            have hg := grantFishLoop_ok_grants env a fishIds hflag
            simp only [feedGrantPhase, hflag, hp, hpf, hsel, hpu] at h ⊢
            simp at h
            simp [hg, h]


/-- C3 counterexample: an owner with two tanks.  The first tank by id
(tank 1) carries an active Plant decoration worth 5 percent, yet the feed
succeeds with the multiplier degraded to 0 — every fish is granted
calculateFishXp 10 0, not the first tank's calculateFishXp 10 5 — because
the single-row tank query reports PGRST116 on two rows. -/
theorem feedFishBatch_multi_tank_degrades :
    dbFeedTwoTanks.tanks.map (fun t => t.id) = [1, 2] ∧
    getActiveDecorationsMultiplier dbFeedTwoTanks feedEnvOk.multiplierEnv 1 =
      .ok ((0 + 5 : ℚ) / 100) ∧
    selectSingle (dbFeedTwoTanks.tanks.filter
      (fun t => t.owner = strTrim addrW)) = none ∧
    (feedFishBatch dbFeedTwoTanks feedEnvOk [1, 2] addrW).result = .ok "ptx" ∧
    (feedFishBatch dbFeedTwoTanks feedEnvOk [1, 2] addrW).fishGrants =
      [(1, calculateFishXp getFeedBaseXp 0), (2, calculateFishXp getFeedBaseXp 0)] ∧
    calculateFishXp getFeedBaseXp 5 ≠ calculateFishXp getFeedBaseXp 0 := by
  refine ⟨rfl, rfl, rfl, rfl, rfl, ?_⟩
  intro hc
  have : (10 : ℚ) * (1 + 5 / 100) = 10 * (1 + 0 / 100) := hc
  norm_num at this

/-- C3: every fish of a successful batch is granted the identical XP value
calculateFishXp 10 m, the player is granted that value times the batch
size, and the multiplier m is the single resolved owner tank's decoration
multiplier — degraded to 0 when the owner has no tank, when the tank
resolution yields no single row (in particular when the owner has several
tanks, where the claimed first-by-id choice does not happen), or when
computing the decoration multiplier fails. -/
theorem feedFishBatch_uniform_xp (db : DB) (env : FeedEnv)
    (fishIds : List Int) (owner : String) (tx : String)
    (hres : (feedFishBatch db env fishIds owner).result = .ok tx) :
    ∃ m : ℚ,
      (feedFishBatch db env fishIds owner).fishGrants =
        fishIds.map (fun i => (i, calculateFishXp getFeedBaseXp m)) ∧
      (feedFishBatch db env fishIds owner).playerGrant =
        some (tx, calculateFishXp getFeedBaseXp m * (fishIds.length : ℚ)) ∧
      (∀ t, selectSingle (db.tanks.filter (fun t2 => t2.owner = strTrim owner)) =
          some t →
        m = (match getActiveDecorationsMultiplier db env.multiplierEnv (t.id : Int) with
          | .error _ => 0
          | .ok d => d * 100)) ∧
      (selectSingle (db.tanks.filter (fun t2 => t2.owner = strTrim owner)) = none →
        m = 0) ∧
      (∀ t1 t2, t1 ∈ db.tanks.filter (fun t3 => t3.owner = strTrim owner) →
        t2 ∈ db.tanks.filter (fun t3 => t3.owner = strTrim owner) →
        t1 ≠ t2 → m = 0) := by
  have hshape := feedFishBatch_ok_shape db env fishIds owner tx hres
  rw [hshape] at hres ⊢
  have hg := feedGrantPhase_success db env fishIds owner _ tx hres
  refine ⟨feedMultiplier db env owner, hg.1, hg.2, ?_, ?_, ?_⟩
  · intro t ht
    exact feedMultiplier_some db env owner t ht
  · intro hn
    exact feedMultiplier_none db env owner hn
  · intro t1 t2 h1 h2 hne
    exact feedMultiplier_none db env owner
      (selectSingle_eq_none_of_two _ t1 t2 h1 h2 hne)

/-- C3 witness: feeding two fish of an owner with one tank carrying an
active Plant decoration grants uniform XP to both fish and the double to
the player. -/
theorem feedFishBatch_uniform_xp_witness :
    ∃ m : ℚ,
      (feedFishBatch dbFeed feedEnvOk [1, 2] addrW).fishGrants =
        [1, 2].map (fun i => ((i : Int), calculateFishXp getFeedBaseXp m)) ∧
      (feedFishBatch dbFeed feedEnvOk [1, 2] addrW).playerGrant =
        some ("ptx", calculateFishXp getFeedBaseXp m * (([1, 2] : List Int).length : ℚ)) ∧
      (∀ t, selectSingle (dbFeed.tanks.filter
          (fun t2 => t2.owner = strTrim addrW)) = some t →
        m = (match getActiveDecorationsMultiplier dbFeed feedEnvOk.multiplierEnv (t.id : Int) with
          | .error _ => 0
          | .ok d => d * 100)) ∧
      (selectSingle (dbFeed.tanks.filter (fun t2 => t2.owner = strTrim addrW)) = none →
        m = 0) ∧
      (∀ t1 t2, t1 ∈ dbFeed.tanks.filter (fun t3 => t3.owner = strTrim addrW) →
        t2 ∈ dbFeed.tanks.filter (fun t3 => t3.owner = strTrim addrW) →
        t1 ≠ t2 → m = 0) :=
  feedFishBatch_uniform_xp dbFeed feedEnvOk [1, 2] addrW "ptx" rfl


/-- Membership in the missing-ids list computed by the exact-count check:
exactly the requested ids that no stored fish row carries. -/
theorem mem_missing_iff (fishIds : List Int) (fishTab : List FishRow)
    (i : Int) :
    (i ∈ fishIds.filter (fun j =>
      j ∉ (fishTab.filter (fun f => (f.id : Int) ∈ fishIds)).map
        (fun f => (f.id : Int)))) ↔
    (i ∈ fishIds ∧ ∀ f ∈ fishTab, (f.id : Int) ≠ i) := by
  simp only [List.mem_filter, List.mem_map, decide_eq_true_eq, not_exists]
  constructor
  · rintro ⟨hi, hnot⟩
    refine ⟨hi, fun f hf hfi => ?_⟩
    exact hnot f ⟨⟨hf, by simp [hfi, hi]⟩, hfi⟩
  · rintro ⟨hi, hno⟩
    refine ⟨hi, fun f hx => ?_⟩
    simp only [List.mem_filter] at hx
    exact hno f hx.1.1 hx.2

/-- Membership in the mismatched-owner id list: exactly the ids of the
requested rows whose owner differs from the caller. -/
theorem mem_wrongOwner_iff (fishIds : List Int) (fishTab : List FishRow)
    (ownerT : String) (j : Int) :
    (j ∈ ((fishTab.filter (fun f => (f.id : Int) ∈ fishIds)).filter
        (fun f => f.owner ≠ ownerT)).map (fun f => (f.id : Int))) ↔
    (∃ f ∈ fishTab, (f.id : Int) ∈ fishIds ∧ f.owner ≠ ownerT ∧
      (f.id : Int) = j) := by
  simp only [List.mem_map, List.mem_filter, decide_eq_true_eq, decide_not,
    Bool.not_eq_true', decide_eq_false_iff_not]
  constructor
  · rintro ⟨f, ⟨⟨hf, hin⟩, hown⟩, hj⟩
    exact ⟨f, hf, hin, hown, hj⟩
  · rintro ⟨f, hf, hin, hown, hj⟩
    exact ⟨f, ⟨⟨hf, hin⟩, hown⟩, hj⟩


/-- C4 counterexample: a batch whose requested ids are all absent is
rejected with the blanket ValidationError `noneExist`, which names no ids
— not with a NotFoundError naming the missing ids as claimed. -/
theorem feedFishBatch_all_missing_validation :
    (feedFishBatch dbFeed feedEnvOk [98, 99] addrW).result =
      .error .noneExist ∧
    Err.noneExist.kind = ErrClass.validationE ∧
    Err.noneExist.kind ≠ ErrClass.notFoundE := by
  exact ⟨rfl, rfl, by decide⟩

/-- C4 (amended): the batch is fetched in one query and each check
inspects the whole batch: when at least one requested id exists and some
are missing, the call fails with NotFoundError `missingFish` naming
exactly the requested ids that no stored fish carries; when all rows
exist and some have a different owner, it fails with ValidationError
`wrongOwnerBatch` naming exactly the mismatched ids; but when none of the
requested ids exists, the call fails with the blanket ValidationError
`noneExist` (not a NotFoundError, and naming no ids).  The store is
untouched in all three cases. -/
theorem feedFishBatch_whole_batch_validation (db : DB) (env : FeedEnv)
    (fishIds : List Int) (owner : String)
    (hids : fishIds ≠ []) (hinv : firstInvalidId fishIds = none)
    (ht : strTrim owner ≠ "")
    (hsa : isStarknetAddress (strTrim owner) = true)
    (hfq : env.fishQueryFails = false) :
    (db.fish.filter (fun f => (f.id : Int) ∈ fishIds) = [] →
      feedFishBatch db env fishIds owner =
        ⟨.error .noneExist, db, [], none⟩ ∧
      Err.noneExist.kind = ErrClass.validationE) ∧
    (db.fish.filter (fun f => (f.id : Int) ∈ fishIds) ≠ [] →
      (db.fish.filter (fun f => (f.id : Int) ∈ fishIds)).length ≠ fishIds.length →
      feedFishBatch db env fishIds owner =
        ⟨.error (.missingFish (fishIds.filter (fun j =>
          j ∉ (db.fish.filter (fun f => (f.id : Int) ∈ fishIds)).map
            (fun f => (f.id : Int))))), db, [], none⟩ ∧
      (Err.missingFish (fishIds.filter (fun j =>
        j ∉ (db.fish.filter (fun f => (f.id : Int) ∈ fishIds)).map
          (fun f => (f.id : Int))))).kind = ErrClass.notFoundE ∧
      (∀ i, i ∈ fishIds.filter (fun j =>
          j ∉ (db.fish.filter (fun f => (f.id : Int) ∈ fishIds)).map
            (fun f => (f.id : Int))) ↔
        (i ∈ fishIds ∧ ∀ f ∈ db.fish, (f.id : Int) ≠ i))) ∧
    ((db.fish.filter (fun f => (f.id : Int) ∈ fishIds)).length = fishIds.length →
      (db.fish.filter (fun f => (f.id : Int) ∈ fishIds)).filter
        (fun f => f.owner ≠ strTrim owner) ≠ [] →
      feedFishBatch db env fishIds owner =
        ⟨.error (.wrongOwnerBatch
          (((db.fish.filter (fun f => (f.id : Int) ∈ fishIds)).filter
            (fun f => f.owner ≠ strTrim owner)).map (fun f => (f.id : Int)))),
          db, [], none⟩ ∧
      (Err.wrongOwnerBatch
        (((db.fish.filter (fun f => (f.id : Int) ∈ fishIds)).filter
          (fun f => f.owner ≠ strTrim owner)).map (fun f => (f.id : Int)))).kind =
        ErrClass.validationE ∧
      (∀ j, j ∈ ((db.fish.filter (fun f => (f.id : Int) ∈ fishIds)).filter
          (fun f => f.owner ≠ strTrim owner)).map (fun f => (f.id : Int)) ↔
        (∃ f ∈ db.fish, (f.id : Int) ∈ fishIds ∧ f.owner ≠ strTrim owner ∧
          (f.id : Int) = j))) := by
  refine ⟨?_, ?_, ?_⟩
  · intro hnil
    refine ⟨feedFishBatch_validate_error db env fishIds owner _ ?_, rfl⟩
    simp only [feedValidate, hinv]
    simp [hids, ht, hsa, hfq, hnil]
  · intro hne hlen
    refine ⟨feedFishBatch_validate_error db env fishIds owner _ ?_, rfl,
      fun i => mem_missing_iff fishIds db.fish i⟩
    simp only [feedValidate, hinv]
    simp [hids, ht, hsa, hfq, hne, hlen]
  · intro hlen hwo
    refine ⟨feedFishBatch_validate_error db env fishIds owner _ ?_, rfl,
      fun j => mem_wrongOwner_iff fishIds db.fish (strTrim owner) j⟩
    have hne : db.fish.filter (fun f => (f.id : Int) ∈ fishIds) ≠ [] := by
      intro hnil
      exact hwo (by rw [hnil]; rfl)
    simp only [feedValidate, hinv]
    simp [hids, ht, hsa, hfq, hne, hlen]
    simpa using hwo

/-- C4 witness: requesting one existing and one absent fish fails with
NotFoundError naming exactly the absent id; the owner-mismatch branch is
exercised through the whole-batch characterization at the same input. -/
theorem feedFishBatch_whole_batch_validation_witness :
    (feedFishBatch dbFeed feedEnvOk [1, 99] addrW).result =
      .error (.missingFish [99]) := by
  have h := feedFishBatch_whole_batch_validation dbFeed feedEnvOk [1, 99] addrW
    (by decide) (by decide) (by decide) (by decide) rfl
  have h2 := (h.2.1 (by decide) (by decide)).1
  rw [h2]
  rfl


/-- The per-fish sync insert loop only appends sync_queue rows. -/
theorem syncInsertFish_fields (env : FeedEnv) (fishTxs : List (Int × String)) :
    ∀ db : DB,
      (syncInsertFish env db fishTxs).players = db.players ∧
      (syncInsertFish env db fishTxs).fish = db.fish ∧
      (syncInsertFish env db fishTxs).tanks = db.tanks ∧
      (syncInsertFish env db fishTxs).decorations = db.decorations ∧
      ∃ rows, (syncInsertFish env db fishTxs).sync_queue =
        db.sync_queue ++ rows := by
  induction fishTxs with
  | nil =>
    intro db
    exact ⟨rfl, rfl, rfl, rfl, [], by simp [syncInsertFish]⟩
  | cons ft rest ih =>
    intro db
    cases hf : env.syncInsertFails ft.2 with
    | true => simpa [syncInsertFish, hf] using ih db
    | false =>
      have h := ih { db with sync_queue := db.sync_queue ++
        [⟨ft.2, "fish", toString ft.1, "pending"⟩] }
      simp only [syncInsertFish, hf, Bool.false_eq_true, if_false] at h ⊢
      obtain ⟨h1, h2, h3, h4, rows, h5⟩ := h
      refine ⟨h1, h2, h3, h4,
        ⟨⟨ft.2, "fish", toString ft.1, "pending"⟩ :: rows, ?_⟩⟩
      rw [h5]
      simp

/-- appendSyncRows only appends sync_queue rows. -/
theorem appendSyncRows_fields (db : DB) (env : FeedEnv)
    (fishTxs : List (Int × String)) (ptx ownerT : String) :
    (appendSyncRows db env fishTxs ptx ownerT).players = db.players ∧
    (appendSyncRows db env fishTxs ptx ownerT).fish = db.fish ∧
    (appendSyncRows db env fishTxs ptx ownerT).tanks = db.tanks ∧
    (appendSyncRows db env fishTxs ptx ownerT).decorations = db.decorations ∧
    ∃ rows, (appendSyncRows db env fishTxs ptx ownerT).sync_queue =
      db.sync_queue ++ rows := by
  obtain ⟨h1, h2, h3, h4, rows, h5⟩ := syncInsertFish_fields env fishTxs db
  cases hp : env.syncInsertFails ptx with
  | true =>
    simp only [appendSyncRows, hp, if_true]
    exact ⟨h1, h2, h3, h4, rows, h5⟩
  | false =>
    simp only [appendSyncRows, hp, Bool.false_eq_true, if_false]
    refine ⟨h1, h2, h3, h4,
      ⟨rows ++ [⟨ptx, "player", ownerT, "pending"⟩], ?_⟩⟩
    simp [h5]

/-- A successful grant phase leaves fish, tanks and decorations untouched,
only appends sync_queue rows, and rewrites exactly the caller's player
rows to the previously-read total_xp plus the total gained. -/
theorem feedGrantPhase_frame (db : DB) (env : FeedEnv) (fishIds : List Int)
    (owner : String) (a : ℚ) (tx : String)
    (h : (feedGrantPhase db env fishIds owner a).result = .ok tx) :
    (feedGrantPhase db env fishIds owner a).db.fish = db.fish ∧
    (feedGrantPhase db env fishIds owner a).db.tanks = db.tanks ∧
    (feedGrantPhase db env fishIds owner a).db.decorations = db.decorations ∧
    (∃ rows, (feedGrantPhase db env fishIds owner a).db.sync_queue =
      db.sync_queue ++ rows) ∧
    (∃ xp : ℚ, (feedGrantPhase db env fishIds owner a).db.players =
        db.players.map (fun p => if p.address = strTrim owner
          then { p with total_xp := xp } else p) ∧
      ∀ q ∈ db.players, q.address = strTrim owner →
        xp = q.total_xp + a * (fishIds.length : ℚ)) := by
  cases hflag : (grantFishLoop env a fishIds).2.2 with
  | false => simp [feedGrantPhase, hflag] at h
  | true =>
    cases hp : env.gainPlayerXp with
    | none => simp [feedGrantPhase, hflag, hp] at h
    | some playerTx =>
      cases hpf : env.playerFetchFails with
      | true => simp [feedGrantPhase, hflag, hp, hpf] at h
      | false =>
        cases hsel : selectSingle (db.players.filter
            (fun p => p.address = strTrim owner)) with
        | none => simp [feedGrantPhase, hflag, hp, hpf, hsel] at h
        | some playerData =>
          cases hpu : env.playerUpdateFails with
          | true => simp [feedGrantPhase, hflag, hp, hpf, hsel, hpu] at h
          | false =>
            simp only [feedGrantPhase, hflag, hp, hpf, hsel, hpu,
              Bool.false_eq_true, if_false]
            obtain ⟨h1, h2, h3, h4, rows, h5⟩ := appendSyncRows_fields
              { db with players := db.players.map (fun p =>
                if p.address = strTrim owner
                then { p with total_xp :=
                  playerData.total_xp + a * (fishIds.length : ℚ) }
                else p) }
              env (grantFishLoop env a fishIds).2.1 playerTx (strTrim owner)
            refine ⟨h2, h3, h4, ⟨rows, h5⟩,
      ⟨playerData.total_xp + a * (fishIds.length : ℚ), h1, ?_⟩⟩
            intro q hq hqa
            have hmem : q ∈ db.players.filter
                (fun p => p.address = strTrim owner) :=
              List.mem_filter.mpr ⟨hq, by simp [hqa]⟩
            rw [selectSingle_eq_some_iff] at hsel
            rw [hsel] at hmem
            simp only [List.mem_singleton] at hmem
            rw [hmem]


/-- C10: a successful feedFishBatch call mutates no fish, tank or
decoration row; it only appends sync_queue rows and rewrites the caller's
player rows, setting total_xp to the previously-read value plus the total
XP gained (the tank-wide per-fish value times the batch size). -/
theorem feedFishBatch_frame (db : DB) (env : FeedEnv) (fishIds : List Int)
    (owner : String) (tx : String)
    (hres : (feedFishBatch db env fishIds owner).result = .ok tx) :
    (feedFishBatch db env fishIds owner).db.fish = db.fish ∧
    (feedFishBatch db env fishIds owner).db.tanks = db.tanks ∧
    (feedFishBatch db env fishIds owner).db.decorations = db.decorations ∧
    (∃ rows, (feedFishBatch db env fishIds owner).db.sync_queue =
      db.sync_queue ++ rows) ∧
    (∃ xp : ℚ, (feedFishBatch db env fishIds owner).db.players =
        db.players.map (fun p => if p.address = strTrim owner
          then { p with total_xp := xp } else p) ∧
      ∀ q ∈ db.players, q.address = strTrim owner →
        xp = q.total_xp +
          calculateFishXp getFeedBaseXp (feedMultiplier db env owner) *
            (fishIds.length : ℚ)) := by
  have hshape := feedFishBatch_ok_shape db env fishIds owner tx hres
  rw [hshape] at hres ⊢
  exact feedGrantPhase_frame db env fishIds owner _ tx hres

/-- C10 witness: the concrete successful feed touches only the caller's
player row and the sync queue. -/
theorem feedFishBatch_frame_witness :
    (feedFishBatch dbFeed feedEnvOk [1, 2] addrW).db.fish = dbFeed.fish ∧
    (feedFishBatch dbFeed feedEnvOk [1, 2] addrW).db.tanks = dbFeed.tanks ∧
    (feedFishBatch dbFeed feedEnvOk [1, 2] addrW).db.decorations =
      dbFeed.decorations ∧
    (∃ rows, (feedFishBatch dbFeed feedEnvOk [1, 2] addrW).db.sync_queue =
      dbFeed.sync_queue ++ rows) ∧
    (∃ xp : ℚ, (feedFishBatch dbFeed feedEnvOk [1, 2] addrW).db.players =
        dbFeed.players.map (fun p => if p.address = strTrim addrW
          then { p with total_xp := xp } else p) ∧
      ∀ q ∈ dbFeed.players, q.address = strTrim addrW →
        xp = q.total_xp +
          calculateFishXp getFeedBaseXp (feedMultiplier dbFeed feedEnvOk addrW) *
            (([1, 2] : List Int).length : ℚ)) :=
  feedFishBatch_frame dbFeed feedEnvOk [1, 2] addrW "ptx" rfl


/-- C5: breedFish rejects each violated precondition with its own named
error before any mutation: breeding a fish with itself fails with the
ValidationError selfBreed for every store and environment (no store
access); a parent not owned by the caller, not Adult, or not ready to
breed fails with the ValidationError naming that parent; an owner with no
tank fails with the NotFoundError noTank; and a full tank fails with the
ConflictError carrying the current fish count and the on-chain capacity.
The store is returned unchanged in every case. -/
theorem breedFish_preconditions (db : DB) (env : BreedEnv)
    (fish1Id fish2Id : Int) (owner : String) :
    (fish1Id = fish2Id →
      breedFish db env fish1Id fish2Id owner = ⟨.error .selfBreed, db⟩ ∧
      Err.selfBreed.kind = ErrClass.validationE) ∧
    (∀ f1 f2 : Fish, fish1Id ≠ fish2Id → ¬fish1Id ≤ 0 → ¬fish2Id ≤ 0 →
      strTrim owner ≠ "" → isStarknetAddress (strTrim owner) = true →
      getFishById db env fish1Id = .ok f1 →
      getFishById db env fish2Id = .ok f2 →
      ((f1.owner ≠ strTrim owner →
        breedFish db env fish1Id fish2Id owner =
          ⟨.error (.wrongOwnerFish fish1Id), db⟩) ∧
      (f1.owner = strTrim owner → f2.owner ≠ strTrim owner →
        breedFish db env fish1Id fish2Id owner =
          ⟨.error (.wrongOwnerFish fish2Id), db⟩) ∧
      (f1.owner = strTrim owner → f2.owner = strTrim owner →
        f1.state ≠ FishState.Adult →
        breedFish db env fish1Id fish2Id owner =
          ⟨.error (.notAdult fish1Id), db⟩) ∧
      (f1.owner = strTrim owner → f2.owner = strTrim owner →
        f1.state = FishState.Adult → f2.state ≠ FishState.Adult →
        breedFish db env fish1Id fish2Id owner =
          ⟨.error (.notAdult fish2Id), db⟩) ∧
      (f1.owner = strTrim owner → f2.owner = strTrim owner →
        f1.state = FishState.Adult → f2.state = FishState.Adult →
        f1.isReadyToBreed = false →
        breedFish db env fish1Id fish2Id owner =
          ⟨.error (.notReady fish1Id), db⟩) ∧
      (f1.owner = strTrim owner → f2.owner = strTrim owner →
        f1.state = FishState.Adult → f2.state = FishState.Adult →
        f1.isReadyToBreed = true → f2.isReadyToBreed = false →
        breedFish db env fish1Id fish2Id owner =
          ⟨.error (.notReady fish2Id), db⟩) ∧
      (f1.owner = strTrim owner → f2.owner = strTrim owner →
        f1.state = FishState.Adult → f2.state = FishState.Adult →
        f1.isReadyToBreed = true → f2.isReadyToBreed = true →
        getFirstTankIdByOwner db env (strTrim owner) = .ok none →
        breedFish db env fish1Id fish2Id owner = ⟨.error .noTank, db⟩) ∧
      (f1.owner = strTrim owner → f2.owner = strTrim owner →
        f1.state = FishState.Adult → f2.state = FishState.Adult →
        f1.isReadyToBreed = true → f2.isReadyToBreed = true →
        ∀ tid e, getFirstTankIdByOwner db env (strTrim owner) = .ok (some tid) →
          checkTankCapacity db env (tid : Int) 1 = .error e →
          breedFish db env fish1Id fish2Id owner = ⟨.error e, db⟩))) ∧
    (∀ tid : Int, ∀ cap : Nat, ∀ t : TankRow, ¬tid ≤ 0 →
      selectSingle (db.tanks.filter (fun t2 => (t2.id : Int) = tid)) = some t →
      env.tankOnChain tid = some cap → env.capacityCountFails = false →
      ((db.fish.filter (fun f => f.tank_id = some tid.toNat)).length : Int) + 1 >
        (cap : Int) →
      checkTankCapacity db env tid 1 =
        .error (.tankFull tid
          (db.fish.filter (fun f => f.tank_id = some tid.toNat)).length cap)) ∧
    (∀ i, (Err.wrongOwnerFish i).kind = ErrClass.validationE) ∧
    (∀ i, (Err.notAdult i).kind = ErrClass.validationE) ∧
    (∀ i, (Err.notReady i).kind = ErrClass.validationE) ∧
    Err.noTank.kind = ErrClass.notFoundE ∧
    (∀ a b c, (Err.tankFull a b c).kind = ErrClass.conflictE) := by
  refine ⟨?_, ?_, ?_, fun i => rfl, fun i => rfl, fun i => rfl, rfl,
    fun a b c => rfl⟩
  · intro hself
    exact ⟨by simp [breedFish, hself], rfl⟩
  · intro f1 f2 hne h1 h2 ht hsa hf1 hf2
    refine ⟨?_, ?_, ?_, ?_, ?_, ?_, ?_, ?_⟩
    · intro hw1
      simp [breedFish, hne, h1, h2, ht, hsa, hf1, hf2, hw1]
    · intro ho1 hw2
      simp [breedFish, hne, h1, h2, ht, hsa, hf1, hf2, ho1, hw2]
    · intro ho1 ho2 hs1
      simp [breedFish, hne, h1, h2, ht, hsa, hf1, hf2, ho1, ho2, hs1]
    · intro ho1 ho2 hs1 hs2
      simp [breedFish, hne, h1, h2, ht, hsa, hf1, hf2, ho1, ho2, hs1, hs2]
    · intro ho1 ho2 hs1 hs2 hr1
      simp [breedFish, hne, h1, h2, ht, hsa, hf1, hf2, ho1, ho2, hs1, hs2, hr1]
    · intro ho1 ho2 hs1 hs2 hr1 hr2
      simp [breedFish, hne, h1, h2, ht, hsa, hf1, hf2, ho1, ho2, hs1, hs2,
        hr1, hr2]
    · intro ho1 ho2 hs1 hs2 hr1 hr2 htank
      simp [breedFish, hne, h1, h2, ht, hsa, hf1, hf2, ho1, ho2, hs1, hs2,
        hr1, hr2, htank]
    · intro ho1 ho2 hs1 hs2 hr1 hr2 tid e htank hcap
      simp [breedFish, hne, h1, h2, ht, hsa, hf1, hf2, ho1, ho2, hs1, hs2,
        hr1, hr2, htank, hcap]
  · intro tid cap t hpos hsel hoc hcf hover
    simp only [checkTankCapacity, hsel, hoc, hcf]
    simp [hpos, hover]

/-- C5 witness: breeding fish 1 with itself is rejected as selfBreed with
the store unchanged, and breeding into the two-fish tank of capacity 2 is
rejected as tankFull carrying current count 2 and capacity 2. -/
theorem breedFish_preconditions_witness :
    breedFish dbBreed breedEnvOk 1 1 addrW = ⟨.error .selfBreed, dbBreed⟩ ∧
    breedFish dbBreed breedEnvCap 1 2 addrW =
      ⟨.error (.tankFull 1 2 2), dbBreed⟩ := by
  constructor
  · exact ((breedFish_preconditions dbBreed breedEnvOk 1 1 addrW).1 rfl).1
  · exact ((breedFish_preconditions dbBreed breedEnvCap 1 2 addrW).2.1
      ⟨1, 400, .Adult, 50, true, "0xdna", addrW, "Goldfish", "g.png"⟩
      ⟨2, 400, .Adult, 50, true, "0xdna", addrW, "Goldfish", "g.png"⟩
      (by decide) (by decide) (by decide) (by decide) (by decide) rfl rfl).2.2.2.2.2.2.2
      rfl rfl rfl rfl rfl rfl 1 (.tankFull 1 2 2) rfl rfl


/-- Filtering with a stronger predicate keeps at most as many elements. -/
theorem length_filter_mono {α : Type} (l : List α) (p q : α → Bool)
    (h : ∀ a, p a = true → q a = true) :
    (l.filter p).length ≤ (l.filter q).length := by
  rw [← List.countP_eq_length_filter, ← List.countP_eq_length_filter]
  exact List.countP_mono_left (fun a _ => h a)

/-- Filtering with a strictly stronger predicate that loses a present
element keeps strictly fewer elements. -/
theorem length_filter_lt {α : Type} (l : List α) (p q : α → Bool)
    (himp : ∀ a, p a = true → q a = true) (a0 : α) (ha0 : a0 ∈ l)
    (hq0 : q a0 = true) (hp0 : p a0 = false) :
    (l.filter p).length < (l.filter q).length := by
  rw [← List.countP_eq_length_filter, ← List.countP_eq_length_filter]
  induction l with
  | nil => cases ha0
  | cons a l ih =>
    rw [List.countP_cons, List.countP_cons]
    rcases List.mem_cons.mp ha0 with rfl | hmem
    · have := List.countP_mono_left (fun a _ => himp a) (l := l)
      simp [hp0, hq0]
      omega
    · have h2 := ih hmem
      have h3 : (if p a = true then 1 else 0) ≤ (if q a = true then 1 else 0) := by
        cases hp : p a
        · simp
        · simp [himp a hp]
      omega

/-- The number of table fish ids not yet visited: the measure showing the
genealogy fuel is never exhausted. -/
def unvis (t : List FishRow) (v : List Nat) : Nat :=
  ((t.map (fun f => f.id)).filter (fun i => i ∉ v)).length

/-- Growing the visited set cannot increase the measure. -/
theorem unvis_append_le (t : List FishRow) (v ext : List Nat) :
    unvis t (v ++ ext) ≤ unvis t v := by
  refine length_filter_mono _ _ _ (fun a ha => ?_)
  simp only [decide_eq_true_eq, List.mem_append, not_or] at ha ⊢
  exact ha.1

/-- Visiting a table id that was not yet visited strictly decreases the
measure. -/
theorem unvis_snoc_lt (t : List FishRow) (v : List Nat) (p : Nat)
    (hmem : p ∈ t.map (fun f => f.id)) (hnv : p ∉ v) :
    unvis t (v ++ [p]) < unvis t v := by
  refine length_filter_lt _ _ _ (fun a ha => ?_) p hmem ?_ ?_
  · simp only [decide_eq_true_eq, List.mem_append, not_or] at ha ⊢
    exact ha.1
  · simpa using hnv
  · simp

/-- A successful single-row lookup pins the row id and shows the id is in
the table. -/
theorem gLookup_mem (t : List FishRow) (p : Nat) (row : FishRow)
    (h : gLookup t p = some row) :
    row.id = p ∧ p ∈ t.map (fun f => f.id) := by
  unfold gLookup at h
  rw [selectSingle_eq_some_iff] at h
  have hrow : row ∈ t.filter (fun f => f.id = p) := by
    rw [h]
    exact List.mem_singleton_self _
  have h1 := List.of_mem_filter hrow
  have h2 := List.mem_of_mem_filter hrow
  simp only [decide_eq_true_eq] at h1
  exact ⟨h1, List.mem_map.mpr ⟨row, h2, h1⟩⟩


/-- parentStep only appends to the visited set and the accumulator, and
appends members at or beyond the entry generation, provided fetchAncestors
at the same fuel does. -/
theorem parentStep_ext_of (n : Nat)
    (hA : ∀ t st p1 p2 gen st', fetchAncestors n t st p1 p2 gen = .ok st' →
      (∃ ev, st'.visited = st.visited ++ ev) ∧
      (∃ ea, st'.acc = st.acc ++ ea ∧ ∀ m ∈ ea, gen ≤ m.generation)) :
    ∀ t st p gen st', parentStep n t st p gen = .ok st' →
      (∃ ev, st'.visited = st.visited ++ ev) ∧
      (∃ ea, st'.acc = st.acc ++ ea ∧ ∀ m ∈ ea, gen ≤ m.generation) := by
  intro t st p gen st' h
  cases p with
  | none =>
    simp only [parentStep, Except.ok.injEq] at h
    subst h
    exact ⟨⟨[], by simp⟩, ⟨[], by simp, by simp⟩⟩
  | some q =>
    simp only [parentStep] at h
    split at h
    · simp only [Except.ok.injEq] at h
      subst h
      exact ⟨⟨[], by simp⟩, ⟨[], by simp, by simp⟩⟩
    · cases hg : gLookup t q with
      | none =>
        simp only [hg, Except.ok.injEq] at h
        subst h
        exact ⟨⟨[q], by simp⟩, ⟨[], by simp, by simp⟩⟩
      | some row =>
        simp only [hg] at h
        obtain ⟨⟨ev, hev⟩, ⟨ea, hea, hgen⟩⟩ := hA t _ row.parent1_id
          row.parent2_id (gen + 1) st' h
        refine ⟨⟨q :: ev, by simpa [List.append_assoc] using hev⟩,
          ⟨⟨row.id, row.parent1_id, row.parent2_id, gen⟩ :: ea,
            by simpa [List.append_assoc] using hea, ?_⟩⟩
        intro m hm
        rcases List.mem_cons.mp hm with rfl | hm2
        · simp
        · exact Nat.le_of_succ_le (hgen m hm2)

/-- fetchAncestors only appends to the visited set and the accumulator,
and appends members at or beyond the entry generation. -/
theorem fetchAncestors_ext : ∀ (fuel : Nat) (t : List FishRow) (st : GState)
    (p1 p2 : Option Nat) (gen : Nat) (st' : GState),
    fetchAncestors fuel t st p1 p2 gen = .ok st' →
    (∃ ev, st'.visited = st.visited ++ ev) ∧
    (∃ ea, st'.acc = st.acc ++ ea ∧ ∀ m ∈ ea, gen ≤ m.generation) := by
  intro fuel
  induction fuel with
  | zero =>
    intro t st p1 p2 gen st' h
    simp [fetchAncestors] at h
  | succ n ih =>
    intro t st p1 p2 gen st' h
    rw [fetchAncestors_succ] at h
    split at h
    · simp at h
    · cases hs : parentStep n t st p1 gen with
      | error e => rw [hs] at h; simp at h
      | ok st1 =>
        rw [hs] at h
        simp only at h
        obtain ⟨⟨ev1, hev1⟩, ⟨ea1, hea1, hg1⟩⟩ :=
          parentStep_ext_of n ih t st p1 gen st1 hs
        obtain ⟨⟨ev2, hev2⟩, ⟨ea2, hea2, hg2⟩⟩ :=
          parentStep_ext_of n ih t st1 p2 gen st' h
        refine ⟨⟨ev1 ++ ev2, by rw [hev2, hev1, List.append_assoc]⟩,
          ⟨ea1 ++ ea2, by rw [hea2, hea1, List.append_assoc], ?_⟩⟩
        intro m hm
        rcases List.mem_append.mp hm with hm1 | hm2
        · exact hg1 m hm1
        · exact hg2 m hm2

/-- parentStep cannot run out of fuel when the measure is within the
fuel, provided fetchAncestors at the same fuel cannot under a strictly
smaller measure. -/
theorem parentStep_fuel_of (n : Nat)
    (hA : ∀ t st p1 p2 gen, unvis t st.visited < n →
      fetchAncestors n t st p1 p2 gen ≠ .error .outOfFuel) :
    ∀ t st p gen, unvis t st.visited ≤ n →
      parentStep n t st p gen ≠ .error .outOfFuel := by
  intro t st p gen hm
  cases p with
  | none => simp [parentStep]
  | some q =>
    simp only [parentStep]
    split
    · simp
    · cases hg : gLookup t q with
      | none => simp
      | some row =>
        refine hA t _ row.parent1_id row.parent2_id (gen + 1) ?_
        have hlt := unvis_snoc_lt t st.visited q
          (gLookup_mem t q row hg).2 (by assumption)
        exact Nat.lt_of_lt_of_le hlt hm

/-- fetchAncestors never runs out of fuel when the fuel strictly exceeds
the number of unvisited table ids. -/
theorem fetchAncestors_fuel : ∀ (fuel : Nat) (t : List FishRow)
    (st : GState) (p1 p2 : Option Nat) (gen : Nat),
    unvis t st.visited < fuel →
    fetchAncestors fuel t st p1 p2 gen ≠ .error .outOfFuel := by
  intro fuel
  induction fuel with
  | zero =>
    intro t st p1 p2 gen hm
    exact absurd hm (Nat.not_lt_zero _)
  | succ n ih =>
    intro t st p1 p2 gen hm
    rw [fetchAncestors_succ]
    split
    · simp
    · cases hs : parentStep n t st p1 gen with
      | error e =>
        have hne := parentStep_fuel_of n ih t st p1 gen
          (Nat.lt_succ_iff.mp hm)
        rw [hs] at hne
        simpa using hne
      | ok st1 =>
        simp only
        obtain ⟨⟨ev, hev⟩, _⟩ := parentStep_ext_of n (fetchAncestors_ext n)
          t st p1 gen st1 hs
        refine parentStep_fuel_of n ih t st1 p2 gen ?_
        rw [hev]
        exact Nat.le_trans (unvis_append_le t st.visited ev)
          (Nat.lt_succ_iff.mp hm)


/-- The child loop only appends to the visited set and the accumulator,
and appends members at or beyond the entry generation, provided
fetchDescendants at the same fuel does. -/
theorem goChildren_ext_of (n : Nat)
    (hD : ∀ t st pid gen st', fetchDescendants n t st pid gen = .ok st' →
      (∃ ev, st'.visited = st.visited ++ ev) ∧
      (∃ ea, st'.acc = st.acc ++ ea ∧ ∀ m ∈ ea, gen ≤ m.generation)) :
    ∀ (t : List FishRow) (children : List FishRow) (st : GState)
      (gen : Nat) (st' : GState),
      goChildren n t st children gen = .ok st' →
      (∃ ev, st'.visited = st.visited ++ ev) ∧
      (∃ ea, st'.acc = st.acc ++ ea ∧ ∀ m ∈ ea, gen ≤ m.generation) := by
  intro t children
  induction children with
  | nil =>
    intro st gen st' h
    rw [goChildren_nil, Except.ok.injEq] at h
    subst h
    exact ⟨⟨[], by simp⟩, ⟨[], by simp, by simp⟩⟩
  | cons c rest ih =>
    intro st gen st' h
    by_cases hv : c.id ∈ st.visited
    · rw [goChildren_cons_visited n t st c rest gen hv] at h
      exact ih st gen st' h
    · rw [goChildren_cons_new n t st c rest gen hv] at h
      cases hd : fetchDescendants n t
          ⟨st.visited ++ [c.id],
           st.acc ++ [⟨c.id, c.parent1_id, c.parent2_id, gen⟩],
           max st.maxGen gen⟩ c.id (gen + 1) with
      | error e => rw [hd] at h; simp at h
      | ok st2 =>
        rw [hd] at h
        simp only at h
        obtain ⟨⟨ev1, hev1⟩, ⟨ea1, hea1, hg1⟩⟩ := hD t
          ⟨st.visited ++ [c.id],
           st.acc ++ [⟨c.id, c.parent1_id, c.parent2_id, gen⟩],
           max st.maxGen gen⟩ c.id (gen + 1) st2 hd
        obtain ⟨⟨ev2, hev2⟩, ⟨ea2, hea2, hg2⟩⟩ := ih st2 gen st' h
        refine ⟨⟨(c.id :: ev1) ++ ev2, ?_⟩,
          ⟨(⟨c.id, c.parent1_id, c.parent2_id, gen⟩ :: ea1) ++ ea2, ?_, ?_⟩⟩
        · rw [hev2]
          simp only at hev1
          rw [hev1]
          simp
        · rw [hea2]
          simp only at hea1
          rw [hea1]
          simp
        · intro m hm
          rcases List.mem_append.mp hm with hm1 | hm2
          · rcases List.mem_cons.mp hm1 with rfl | hm3
            · simp
            · exact Nat.le_of_succ_le (hg1 m hm3)
          · exact hg2 m hm2

/-- fetchDescendants only appends to the visited set and the accumulator,
and appends members at or beyond the entry generation. -/
theorem fetchDescendants_ext : ∀ (fuel : Nat) (t : List FishRow)
    (st : GState) (pid gen : Nat) (st' : GState),
    fetchDescendants fuel t st pid gen = .ok st' →
    (∃ ev, st'.visited = st.visited ++ ev) ∧
    (∃ ea, st'.acc = st.acc ++ ea ∧ ∀ m ∈ ea, gen ≤ m.generation) := by
  intro fuel
  induction fuel with
  | zero =>
    intro t st pid gen st' h
    simp [fetchDescendants] at h
  | succ n ih =>
    intro t st pid gen st' h
    rw [fetchDescendants_succ] at h
    split at h
    · simp at h
    · exact goChildren_ext_of n (fun t2 st2 pid2 gen2 st2' =>
        ih t2 st2 pid2 gen2 st2') t _ st gen st' h

/-- The child loop cannot run out of fuel when the measure is within the
fuel, provided fetchDescendants at the same fuel cannot under a strictly
smaller measure. -/
theorem goChildren_fuel_of (n : Nat)
    (hD : ∀ t st pid gen, unvis t st.visited < n →
      fetchDescendants n t st pid gen ≠ .error .outOfFuel) :
    ∀ (t : List FishRow) (children : List FishRow) (st : GState) (gen : Nat),
      (∀ c ∈ children, c ∈ t) → unvis t st.visited ≤ n →
      goChildren n t st children gen ≠ .error .outOfFuel := by
  intro t children
  induction children with
  | nil =>
    intro st gen _ _
    rw [goChildren_nil]
    simp
  | cons c rest ih =>
    intro st gen hsub hm
    by_cases hv : c.id ∈ st.visited
    · rw [goChildren_cons_visited n t st c rest gen hv]
      exact ih st gen (fun x hx => hsub x (List.mem_cons_of_mem c hx)) hm
    · rw [goChildren_cons_new n t st c rest gen hv]
      have hcid : c.id ∈ t.map (fun f => f.id) :=
        List.mem_map.mpr ⟨c, hsub c (List.mem_cons_self c rest), rfl⟩
      have hm1 : unvis t (st.visited ++ [c.id]) < n :=
        Nat.lt_of_lt_of_le (unvis_snoc_lt t st.visited c.id hcid hv) hm
      cases hd : fetchDescendants n t
          ⟨st.visited ++ [c.id],
           st.acc ++ [⟨c.id, c.parent1_id, c.parent2_id, gen⟩],
           max st.maxGen gen⟩ c.id (gen + 1) with
      | error e =>
        have hne := hD t
          ⟨st.visited ++ [c.id],
           st.acc ++ [⟨c.id, c.parent1_id, c.parent2_id, gen⟩],
           max st.maxGen gen⟩ c.id (gen + 1) hm1
        rw [hd] at hne
        simpa using hne
      | ok st2 =>
        simp only
        obtain ⟨⟨ev, hev⟩, _⟩ := fetchDescendants_ext n t _ c.id (gen + 1)
          st2 hd
        refine ih st2 gen (fun x hx => hsub x (List.mem_cons_of_mem c hx)) ?_
        rw [hev]
        exact Nat.le_trans (unvis_append_le t _ ev) (Nat.le_of_lt hm1)

/-- fetchDescendants never runs out of fuel when the fuel strictly
exceeds the number of unvisited table ids. -/
theorem fetchDescendants_fuel : ∀ (fuel : Nat) (t : List FishRow)
    (st : GState) (pid gen : Nat),
    unvis t st.visited < fuel →
    fetchDescendants fuel t st pid gen ≠ .error .outOfFuel := by
  intro fuel
  induction fuel with
  | zero =>
    intro t st pid gen hm
    exact absurd hm (Nat.not_lt_zero _)
  | succ n ih =>
    intro t st pid gen hm
    simp only [fetchDescendants]
    split
    · simp
    · exact goChildren_fuel_of n ih t _ st gen
        (fun c hc => List.mem_of_mem_filter hc) (Nat.lt_succ_iff.mp hm)


/-- The measure never exceeds the table size. -/
theorem unvis_le_length (t : List FishRow) (v : List Nat) :
    unvis t v ≤ t.length := by
  unfold unvis
  calc ((t.map (fun f => f.id)).filter (fun i => i ∉ v)).length
      ≤ (t.map (fun f => f.id)).length := List.length_filter_le _ _
    _ = t.length := List.length_map _ _

instance : IsTotal FishFamilyMember byGeneration :=
  ⟨fun a b => Nat.le_total a.generation b.generation⟩

instance : IsTrans FishFamilyMember byGeneration :=
  ⟨fun _ _ _ hab hbc => Nat.le_trans hab hbc⟩


/-- C8 (amended): the genealogy traversal terminates on every finite fish
table — the fuel of one more than the table size is never exhausted, in
particular on cyclic or diamond-shaped parent references; on success the
ancestors and descendants lists are sorted by generation ascending, the
ancestors list contains the root fish at generation 0 and every other
ancestor at generation 1 or beyond, and every descendant is at generation
1 or beyond; entering any generation beyond the 50-generation ceiling
raises the ValidationError maxDepth.  (A direct parent need not appear at
generation 1: the diamond counterexample reaches one at generation 2.) -/
theorem genealogy_traversal_spec (t : List FishRow) :
    (∀ fishId : Int, buildFishFamilyTree t fishId ≠ .error .outOfFuel) ∧
    (∀ (fishId : Int) (tree : FishFamilyTree),
      buildFishFamilyTree t fishId = .ok tree →
      tree.ancestors.Sorted byGeneration ∧
      tree.descendants.Sorted byGeneration ∧
      (∃ root, gLookup t fishId.toNat = some root ∧ root.id = fishId.toNat ∧
        (⟨root.id, root.parent1_id, root.parent2_id, 0⟩ : FishFamilyMember) ∈
          tree.ancestors ∧
        (∀ m ∈ tree.ancestors,
          m ≠ (⟨root.id, root.parent1_id, root.parent2_id, 0⟩ : FishFamilyMember) →
          1 ≤ m.generation)) ∧
      (∀ m ∈ tree.descendants, 1 ≤ m.generation)) ∧
    (∀ g : Nat, MAX_GENERATION_DEPTH < g →
      (∀ (fuel : Nat) (st : GState) (p1 p2 : Option Nat),
        fetchAncestors (fuel + 1) t st p1 p2 g = .error (.maxDepth g)) ∧
      (∀ (fuel : Nat) (st : GState) (pid : Nat),
        fetchDescendants (fuel + 1) t st pid g = .error (.maxDepth g)) ∧
      (Err.maxDepth g).kind = ErrClass.validationE) := by
  refine ⟨?_, ?_, ?_⟩
  · intro fishId
    simp only [buildFishFamilyTree]
    split
    · simp
    · cases hroot : gLookup t fishId.toNat with
      | none => simp [hroot]
      | some rootFish =>
        simp only [hroot]
        have hmA : unvis t ([fishId.toNat] : List Nat) < genealogyFuel t := by
          simpa [genealogyFuel] using
            Nat.lt_succ_of_le (unvis_le_length t [fishId.toNat])
        cases hanc : fetchAncestors (genealogyFuel t) t
            ⟨[fishId.toNat],
             [⟨rootFish.id, rootFish.parent1_id, rootFish.parent2_id, 0⟩], 0⟩
            rootFish.parent1_id rootFish.parent2_id 1 with
        | error e =>
          simp only [hanc]
          have h := fetchAncestors_fuel (genealogyFuel t) t
            ⟨[fishId.toNat],
             [⟨rootFish.id, rootFish.parent1_id, rootFish.parent2_id, 0⟩], 0⟩
            rootFish.parent1_id rootFish.parent2_id 1 hmA
          rw [hanc] at h
          simpa using h
        | ok stA =>
          simp only [hanc]
          cases hdesc : fetchDescendants (genealogyFuel t) t
              ⟨[fishId.toNat], [], 0⟩ fishId.toNat 1 with
          | error e =>
            simp only [hdesc]
            have h := fetchDescendants_fuel (genealogyFuel t) t
              ⟨[fishId.toNat], [], 0⟩ fishId.toNat 1 hmA
            rw [hdesc] at h
            simpa using h
          | ok stD => simp [hdesc]
  · intro fishId tree h
    simp only [buildFishFamilyTree] at h
    split at h
    · simp at h
    · cases hroot : gLookup t fishId.toNat with
      | none => rw [hroot] at h; simp at h
      | some rootFish =>
        simp only [hroot] at h
        cases hanc : fetchAncestors (genealogyFuel t) t
            ⟨[fishId.toNat],
             [⟨rootFish.id, rootFish.parent1_id, rootFish.parent2_id, 0⟩], 0⟩
            rootFish.parent1_id rootFish.parent2_id 1 with
        | error e => rw [hanc] at h; simp at h
        | ok stA =>
          simp only [hanc] at h
          cases hdesc : fetchDescendants (genealogyFuel t) t
              ⟨[fishId.toNat], [], 0⟩ fishId.toNat 1 with
          | error e => rw [hdesc] at h; simp at h
          | ok stD =>
            simp only [hdesc, Except.ok.injEq] at h
            subst h
            obtain ⟨_, ⟨eaA, heaA, hgA⟩⟩ := fetchAncestors_ext
              (genealogyFuel t) t _ rootFish.parent1_id rootFish.parent2_id
              1 stA hanc
            obtain ⟨_, ⟨eaD, heaD, hgD⟩⟩ := fetchDescendants_ext
              (genealogyFuel t) t _ fishId.toNat 1 stD hdesc
            simp only at heaA heaD
            have hrid := (gLookup_mem t fishId.toNat rootFish hroot).1
            refine ⟨List.sorted_insertionSort byGeneration stA.acc,
              List.sorted_insertionSort byGeneration stD.acc,
              ⟨rootFish, rfl, hrid, ?_, ?_⟩, ?_⟩
            · show _ ∈ List.insertionSort byGeneration stA.acc
              rw [(List.perm_insertionSort byGeneration stA.acc).mem_iff,
                heaA]
              exact List.mem_append_left _ (List.mem_singleton_self _)
            · intro m hm hne
              rw [(List.perm_insertionSort byGeneration stA.acc).mem_iff,
                heaA] at hm
              rcases List.mem_append.mp hm with hm1 | hm2
              · exact absurd (List.mem_singleton.mp hm1) hne
              · exact hgA m hm2
            · intro m hm
              rw [(List.perm_insertionSort byGeneration stD.acc).mem_iff,
                heaD] at hm
              simpa using hgD m (by simpa using hm)
  · intro g hg
    refine ⟨?_, ?_, rfl⟩
    · intro fuel st p1 p2
      rw [fetchAncestors_succ, if_pos hg]
    · intro fuel st pid
      rw [fetchDescendants_succ, if_pos hg]


/-- C8 counterexample: in the diamond table (fish 1 has parents 2 and 3,
and 3 is also the parent of 2) the direct parent 3 of the root appears in
the ancestors list at generation 2, not at generation 1 — the claim that
direct parents sit at generation 1 fails under diamond inheritance,
because parent 3 is first reached through parent 2's chain and the
visited set then skips it at depth 1. -/
theorem genealogy_diamond_parent_generation :
    (∃ root, gLookup tDiamond 1 = some root ∧ root.parent2_id = some 3) ∧
    buildFishFamilyTree tDiamond 1 = .ok ⟨1,
      [⟨1, some 2, some 3, 0⟩, ⟨2, some 3, none, 1⟩, ⟨3, none, none, 2⟩],
      [], 2, 0⟩ ∧
    (∀ m ∈ [(⟨1, some 2, some 3, 0⟩ : FishFamilyMember),
           ⟨2, some 3, none, 1⟩, ⟨3, none, none, 2⟩],
      m.id = 3 → m.generation = 2) := by
  refine ⟨⟨mkFishG 1 (some 2) (some 3), rfl, rfl⟩, rfl, ?_⟩
  decide

/-- C8 witness: the cyclic table terminates, the single parentless fish
yields itself at generation 0 as its whole sorted ancestors list, a
50-generation chain exceeds the ceiling with maxDepth 51, and a
49-generation chain succeeds. -/
theorem genealogy_traversal_spec_witness :
    buildFishFamilyTree tCycle 1 ≠ .error .outOfFuel ∧
    buildFishFamilyTree tSingle 1 = .ok ⟨1, [⟨1, none, none, 0⟩], [], 0, 0⟩ ∧
    ([(⟨1, none, none, 0⟩ : FishFamilyMember)]).Sorted byGeneration ∧
    buildFishFamilyTree (chainT 50) 1 = .error (.maxDepth 51) ∧
    (∃ tree, buildFishFamilyTree (chainT 49) 1 = .ok tree) := by
  have h := genealogy_traversal_spec tCycle
  have h2 := genealogy_traversal_spec tSingle
  refine ⟨h.1 1, rfl, ?_, rfl, ⟨_, rfl⟩⟩
  exact (h2.2.1 1 ⟨1, [⟨1, none, none, 0⟩], [], 0, 0⟩ rfl).1

end Aqua
